import Mathlib

/-!
# ukvm, bhyve backend on x86_64: boot construction and the VCPU run loop

A shallow embedding of `ukvm/ukvm_hv_bhyve_x86_64.c`:

* `vmm_set_desc`, `vmm_set_reg`, `vmm_set_sreg` and `ukvm_hv_vcpu_init` run in a
  small state monad `M` whose state is the monitor handle together with the log
  of the `ioctl` requests issued so far; `err`/`errx` end the run with a status.
* `ukvm_hv_vcpu_loop` consumes a script of `VM_RUN` results (what the host
  kernel hands back each time the guest stops) and threads the handle through
  the exit-handler chain and the hypercall table.

Unsigned C integers are natural numbers, `int` is `Int`; the one subtraction
that can wrap (`hv->mem_size - 8`) is taken modulo `2 ^ 64`.

What the model takes for granted:

* exit handlers and hypercall handlers return to the loop; they are arbitrary
  functions on the handle, and the loop reads the exit record from the handle
  as the exit-handler chain left it, as the C code does;
* `assert` is compiled in, so a failed assertion ends the process;
* `err` and `errx` do not return;
* the declarations of `ukvm.h`, `ukvm_guest.h`, `ukvm_core.c` and
  `ukvm_cpu_x86_64.h`, which are not among the sources, are parameters.
-/

namespace Ukvm

/-! ## Data model -/

/-- The members of `enum vm_reg_name` (`<machine/vmm.h>`) that the backend programs. -/
inductive vm_reg_name
  | VM_REG_GUEST_CR0
  | VM_REG_GUEST_CR3
  | VM_REG_GUEST_CR4
  | VM_REG_GUEST_EFER
  | VM_REG_GUEST_CS
  | VM_REG_GUEST_SS
  | VM_REG_GUEST_DS
  | VM_REG_GUEST_ES
  | VM_REG_GUEST_FS
  | VM_REG_GUEST_GS
  | VM_REG_GUEST_GDTR
  | VM_REG_GUEST_TR
  | VM_REG_GUEST_LDTR
  | VM_REG_GUEST_RIP
  | VM_REG_GUEST_RFLAGS
  | VM_REG_GUEST_RSP
  | VM_REG_GUEST_RDI
  deriving DecidableEq, Repr

open vm_reg_name

/-- A segment register description, `struct x86_sreg`. -/
structure x86_sreg where
  selector : Nat
  base : Nat
  limit : Nat
  type : Nat
  p : Nat
  dpl : Nat
  db : Nat
  s : Nat
  l : Nat
  g : Nat
  avl : Nat
  unusable : Nat
  deriving DecidableEq, Repr

/-- The architecture-dependent part of the boot-info record, `struct ukvm_cpu_boot_info`. -/
structure ukvm_cpu_boot_info where
  tsc_freq : Nat
  deriving DecidableEq, Repr

/-- The boot-info record, `struct ukvm_boot_info`. -/
structure ukvm_boot_info where
  mem_size : Nat
  kernel_end : Nat
  cmdline : Nat
  cpu : ukvm_cpu_boot_info
  deriving DecidableEq, Repr

/-- Guest memory, `hv->mem`: the boot-info record that lives at
`X86_BOOT_INFO_BASE`, and every other byte of the region (zero page, GDT, page
tables, kernel image, command line), which this file does not interpret. -/
structure guest_mem where
  boot_info : ukvm_boot_info
  bytes : List Nat
  deriving DecidableEq, Repr

/-- The fields of `vme->u.inout` that the run loop reads. -/
structure vm_inout where
  bytes : Nat
  in_ : Nat
  port : Nat
  eax : Nat
  deriving DecidableEq, Repr

/-- The exit record `struct vm_exit` that `VM_RUN` fills in. -/
structure vm_exit where
  exitcode : Nat
  inst_length : Int
  rip : Nat
  u_inout : vm_inout
  deriving DecidableEq, Repr

/-- The monitor handle `struct ukvm_hv`, with the exit record of
`hv->b->vmrun` (the file descriptor `hv->b->vmfd` is not modelled). -/
structure ukvm_hv where
  mem : guest_mem
  mem_size : Nat
  vm_exit : vm_exit
  deriving DecidableEq, Repr

/-- The requests the backend sends to the vmm device with `ioctl`. -/
inductive vmm_req
  | VM_SET_SEGMENT_DESCRIPTOR (cpuid : Nat) (regnum : vm_reg_name) (base limit access : Nat)
  | VM_SET_REGISTER (cpuid : Nat) (regnum : vm_reg_name) (regval : Nat)
  | VM_ACTIVATE_CPU (vcpuid : Nat)
  | VM_RUN
  deriving DecidableEq, Repr

open vmm_req

/-- The two host variables read with `sysctlbyname`. -/
inductive sysctl_name
  | machdep_tsc_freq
  | kern_timecounter_invariant_tsc
  deriving DecidableEq, Repr

/-- The host kernel as `ukvm_hv_vcpu_init` sees it: the return value of each
`ioctl` request and of each `sysctlbyname` call, and the two values the latter
store on success. -/
structure host where
  ioctl : vmm_req → Int
  sysctlbyname : sysctl_name → Int
  tsc_freq : Nat
  invariant_tsc : Int

/-- What `ukvm_hv_vcpu_init` uses of `ukvm_cpu_x86_64.h` and
`ukvm_cpu_x86_64.c`. Those two files are not among the sources, so the
constants, the four segment descriptions and the two set-up routines are
parameters. -/
structure ukvm_cpu_x86_64 where
  X86_CR0_INIT : Nat
  X86_CR3_INIT : Nat
  X86_CR4_INIT : Nat
  X86_EFER_INIT : Nat
  X86_RFLAGS_INIT : Nat
  X86_GDT_BASE : Nat
  X86_GDTR_LIMIT : Nat
  X86_BOOT_INFO_BASE : Nat
  X86_CMDLINE_BASE : Nat
  X86_SREG_UNUSABLE_BIT : Nat
  ukvm_x86_sreg_code : x86_sreg
  ukvm_x86_sreg_data : x86_sreg
  ukvm_x86_sreg_tr : x86_sreg
  ukvm_x86_sreg_unusable : x86_sreg
  ukvm_x86_setup_gdt : guest_mem → guest_mem
  ukvm_x86_setup_pagetables : guest_mem → Nat → guest_mem

/-! ## The monad of boot construction -/

/-- The state threaded through boot construction: the handle and the requests
issued so far, oldest first. -/
structure vmm where
  hv : ukvm_hv
  log : List vmm_req
  deriving DecidableEq, Repr

/-- How a computation ends: with a value, or in `err`/`errx` with an exit status. -/
inductive run (α : Type)
  | ok (a : α) (s : vmm)
  | fatal (status : Nat) (s : vmm)
  deriving DecidableEq, Repr

/-- The state in which a computation ended. -/
def run.state {α : Type} : run α → vmm
  | run.ok _ s => s
  | run.fatal _ s => s

/-- Whether a computation ended with a value rather than in a fatal exit. -/
def run.succeeded {α : Type} : run α → Bool
  | run.ok _ _ => true
  | run.fatal _ _ => false

/-- Computations over `vmm` that may end the process. -/
def M (α : Type) : Type := vmm → run α

/-- Continue after a step: a fatal exit skips the rest. -/
def run.and_then {α β : Type} (r : run α) (f : α → M β) : run β :=
  match r with
  | run.ok a s1 => f a s1
  | run.fatal st s1 => run.fatal st s1

/-- Sequencing in `M`. -/
def M.bind {α β : Type} (m : M α) (f : α → M β) : M β := fun s => (m s).and_then f

instance : Monad M where
  pure a := fun s => run.ok a s
  bind := M.bind

/-- Terminate as `err(status, ...)` and `errx(status, ...)` do. -/
def err {α : Type} (status : Nat) : M α := fun s => run.fatal status s

/-- Issue a request: it is logged and the host answers with a return value. -/
def ioctl (h : host) (req : vmm_req) : M Int := fun s =>
  run.ok (h.ioctl req) { s with log := s.log ++ [req] }

/-- Read the handle. -/
def get_hv : M ukvm_hv := fun s => run.ok s.hv s

/-- Write guest memory. -/
def set_mem (m : guest_mem) : M Unit := fun s =>
  run.ok () { s with hv := { s.hv with mem := m } }

/-- Write the boot-info record inside guest memory. -/
def set_boot_info (bi : ukvm_boot_info) : M Unit := fun s =>
  run.ok () { s with hv := { s.hv with mem := { s.hv.mem with boot_info := bi } } }

/-! ## Register and descriptor programming -/

/-- Subtraction of `size_t` values, modulo `2 ^ 64`. -/
def sub64 (a b : Nat) : Nat := (a + (2 ^ 64 - b % 2 ^ 64)) % 2 ^ 64

/-- `vmm_set_desc`. -/
def vmm_set_desc (h : host) (reg : vm_reg_name) (base limit access : Nat) : M Unit := do
  let ret ← ioctl h (VM_SET_SEGMENT_DESCRIPTOR 0 reg base limit access)
  if ret = -1 then err 1 else pure ()

/-- `vmm_set_reg`. -/
def vmm_set_reg (h : host) (reg : vm_reg_name) (val : Nat) : M Unit := do
  let ret ← ioctl h (VM_SET_REGISTER 0 reg val)
  if ret = -1 then err 1 else pure ()

/-- The access-rights word computed in `vmm_set_sreg` (a `uint32_t`). -/
def sreg_access (x : ukvm_cpu_x86_64) (sreg : x86_sreg) : Nat :=
  (sreg.type
    ||| (sreg.s <<< 4)
    ||| (sreg.dpl <<< 5)
    ||| (sreg.p <<< 7)
    ||| (sreg.l <<< 13)
    ||| (sreg.db <<< 14)
    ||| (sreg.g <<< 15)
    ||| (sreg.unusable <<< x.X86_SREG_UNUSABLE_BIT)) % 2 ^ 32

/-- `vmm_set_sreg`. -/
def vmm_set_sreg (x : ukvm_cpu_x86_64) (h : host) (reg : vm_reg_name) (sreg : x86_sreg) :
    M Unit := do
  let base := sreg.base
  let limit := sreg.limit
  let access := sreg_access x sreg
  vmm_set_desc h reg base limit access
  vmm_set_reg h reg (sreg.selector * 8)

/-- `ukvm_hv_vcpu_init`; the value returned stands for `*cmdline`, as the
offset of the command line in guest memory. -/
def ukvm_hv_vcpu_init (x : ukvm_cpu_x86_64) (h : host) (gpa_ep gpa_kend : Nat) : M Nat := do
  let hv ← get_hv
  set_mem (x.ukvm_x86_setup_gdt hv.mem)
  let hv ← get_hv
  set_mem (x.ukvm_x86_setup_pagetables hv.mem hv.mem_size)
  vmm_set_reg h VM_REG_GUEST_CR0 x.X86_CR0_INIT
  vmm_set_reg h VM_REG_GUEST_CR3 x.X86_CR3_INIT
  vmm_set_reg h VM_REG_GUEST_CR4 x.X86_CR4_INIT
  vmm_set_reg h VM_REG_GUEST_EFER x.X86_EFER_INIT
  vmm_set_sreg x h VM_REG_GUEST_CS x.ukvm_x86_sreg_code
  vmm_set_sreg x h VM_REG_GUEST_SS x.ukvm_x86_sreg_data
  vmm_set_sreg x h VM_REG_GUEST_DS x.ukvm_x86_sreg_data
  vmm_set_sreg x h VM_REG_GUEST_ES x.ukvm_x86_sreg_data
  vmm_set_sreg x h VM_REG_GUEST_FS x.ukvm_x86_sreg_data
  vmm_set_sreg x h VM_REG_GUEST_GS x.ukvm_x86_sreg_data
  vmm_set_desc h VM_REG_GUEST_GDTR x.X86_GDT_BASE x.X86_GDTR_LIMIT 0
  vmm_set_sreg x h VM_REG_GUEST_TR x.ukvm_x86_sreg_tr
  vmm_set_sreg x h VM_REG_GUEST_LDTR x.ukvm_x86_sreg_unusable
  let hv ← get_hv
  set_boot_info { hv.mem.boot_info with mem_size := hv.mem_size }
  let hv ← get_hv
  set_boot_info { hv.mem.boot_info with kernel_end := gpa_kend }
  let hv ← get_hv
  set_boot_info { hv.mem.boot_info with cmdline := x.X86_CMDLINE_BASE }
  let ret := h.sysctlbyname sysctl_name.machdep_tsc_freq
  if ret = -1 then err 1 else
  let hv ← get_hv
  set_boot_info { hv.mem.boot_info with cpu := { tsc_freq := h.tsc_freq } }
  let ret := h.sysctlbyname sysctl_name.kern_timecounter_invariant_tsc
  if ret = -1 then err 1 else
  let invariant_tsc := h.invariant_tsc
  if invariant_tsc ≠ 1 then err 1 else
  vmm_set_reg h VM_REG_GUEST_RIP gpa_ep
  vmm_set_reg h VM_REG_GUEST_RFLAGS x.X86_RFLAGS_INIT
  let hv ← get_hv
  vmm_set_reg h VM_REG_GUEST_RSP (sub64 hv.mem_size 8)
  vmm_set_reg h VM_REG_GUEST_RDI x.X86_BOOT_INFO_BASE
  let ret ← ioctl h (VM_ACTIVATE_CPU 0)
  if ret = -1 then err 1 else
  pure x.X86_CMDLINE_BASE

/-- The requests of a complete boot construction for a handle of `mem_size`
bytes and entry point `gpa_ep`, in the order `ukvm_hv_vcpu_init` issues them
(`vcpu_init_ok` proves that a successful run logs exactly these). -/
def boot_requests (x : ukvm_cpu_x86_64) (mem_size gpa_ep : Nat) : List vmm_req :=
  [VM_SET_REGISTER 0 VM_REG_GUEST_CR0 x.X86_CR0_INIT,
   VM_SET_REGISTER 0 VM_REG_GUEST_CR3 x.X86_CR3_INIT,
   VM_SET_REGISTER 0 VM_REG_GUEST_CR4 x.X86_CR4_INIT,
   VM_SET_REGISTER 0 VM_REG_GUEST_EFER x.X86_EFER_INIT,
   VM_SET_SEGMENT_DESCRIPTOR 0 VM_REG_GUEST_CS x.ukvm_x86_sreg_code.base
     x.ukvm_x86_sreg_code.limit (sreg_access x x.ukvm_x86_sreg_code),
   VM_SET_REGISTER 0 VM_REG_GUEST_CS (x.ukvm_x86_sreg_code.selector * 8),
   VM_SET_SEGMENT_DESCRIPTOR 0 VM_REG_GUEST_SS x.ukvm_x86_sreg_data.base
     x.ukvm_x86_sreg_data.limit (sreg_access x x.ukvm_x86_sreg_data),
   VM_SET_REGISTER 0 VM_REG_GUEST_SS (x.ukvm_x86_sreg_data.selector * 8),
   VM_SET_SEGMENT_DESCRIPTOR 0 VM_REG_GUEST_DS x.ukvm_x86_sreg_data.base
     x.ukvm_x86_sreg_data.limit (sreg_access x x.ukvm_x86_sreg_data),
   VM_SET_REGISTER 0 VM_REG_GUEST_DS (x.ukvm_x86_sreg_data.selector * 8),
   VM_SET_SEGMENT_DESCRIPTOR 0 VM_REG_GUEST_ES x.ukvm_x86_sreg_data.base
     x.ukvm_x86_sreg_data.limit (sreg_access x x.ukvm_x86_sreg_data),
   VM_SET_REGISTER 0 VM_REG_GUEST_ES (x.ukvm_x86_sreg_data.selector * 8),
   VM_SET_SEGMENT_DESCRIPTOR 0 VM_REG_GUEST_FS x.ukvm_x86_sreg_data.base
     x.ukvm_x86_sreg_data.limit (sreg_access x x.ukvm_x86_sreg_data),
   VM_SET_REGISTER 0 VM_REG_GUEST_FS (x.ukvm_x86_sreg_data.selector * 8),
   VM_SET_SEGMENT_DESCRIPTOR 0 VM_REG_GUEST_GS x.ukvm_x86_sreg_data.base
     x.ukvm_x86_sreg_data.limit (sreg_access x x.ukvm_x86_sreg_data),
   VM_SET_REGISTER 0 VM_REG_GUEST_GS (x.ukvm_x86_sreg_data.selector * 8),
   VM_SET_SEGMENT_DESCRIPTOR 0 VM_REG_GUEST_GDTR x.X86_GDT_BASE x.X86_GDTR_LIMIT 0,
   VM_SET_SEGMENT_DESCRIPTOR 0 VM_REG_GUEST_TR x.ukvm_x86_sreg_tr.base
     x.ukvm_x86_sreg_tr.limit (sreg_access x x.ukvm_x86_sreg_tr),
   VM_SET_REGISTER 0 VM_REG_GUEST_TR (x.ukvm_x86_sreg_tr.selector * 8),
   VM_SET_SEGMENT_DESCRIPTOR 0 VM_REG_GUEST_LDTR x.ukvm_x86_sreg_unusable.base
     x.ukvm_x86_sreg_unusable.limit (sreg_access x x.ukvm_x86_sreg_unusable),
   VM_SET_REGISTER 0 VM_REG_GUEST_LDTR (x.ukvm_x86_sreg_unusable.selector * 8),
   VM_SET_REGISTER 0 VM_REG_GUEST_RIP gpa_ep,
   VM_SET_REGISTER 0 VM_REG_GUEST_RFLAGS x.X86_RFLAGS_INIT,
   VM_SET_REGISTER 0 VM_REG_GUEST_RSP (sub64 mem_size 8),
   VM_SET_REGISTER 0 VM_REG_GUEST_RDI x.X86_BOOT_INFO_BASE,
   VM_ACTIVATE_CPU 0]

/-- The value a guest register holds after the requests of `log`: that of the
last `VM_SET_REGISTER` for it on virtual CPU `cpuid`, if there is one. -/
def reg_value (cpuid : Nat) (r : vm_reg_name) : List vmm_req → Option Nat
  | [] => none
  | VM_SET_REGISTER c r1 v :: rest =>
      match reg_value cpuid r rest with
      | some w => some w
      | none => if c = cpuid ∧ r1 = r then some v else none
  | _ :: rest => reg_value cpuid r rest

/-! ## The VCPU run loop -/

/-- `VM_EXITCODE_INOUT`, its value in `enum vm_exitcode` of `<machine/vmm.h>`.
Only the fact that the four named exit codes differ matters below. -/
def VM_EXITCODE_INOUT : Nat := 0

/-- `VM_EXITCODE_VMX`. -/
def VM_EXITCODE_VMX : Nat := 1

/-- `VM_EXITCODE_BOGUS`. -/
def VM_EXITCODE_BOGUS : Nat := 2

/-- `VM_EXITCODE_SUSPENDED`. -/
def VM_EXITCODE_SUSPENDED : Nat := 14

/-- `EINTR` of `<errno.h>`. -/
def EINTR : Int := 4

/-- An exit handler, `ukvm_vmexit_fn_t`: it may change the handle and returns
an `int`, zero when it has handled the exit. -/
abbrev ukvm_vmexit_fn_t : Type := ukvm_hv → Int × ukvm_hv

/-- A hypercall handler, `ukvm_hypercall_fn_t`: it receives the handle and a
guest-physical address and may change the handle. -/
abbrev ukvm_hypercall_fn_t : Type := ukvm_hv → Nat → ukvm_hv

/-- What the run loop uses of `ukvm.h`, `ukvm_guest.h` and `ukvm_core.c`, none
of which is among the sources: the exit-handler chain (the entries of the
null-terminated array `ukvm_core_vmexits` before the terminator), the
hypercall table (a slot is `none` when the pointer is `NULL`) and the two
constants of the hypercall port range. -/
structure ukvm_core where
  ukvm_core_vmexits : List ukvm_vmexit_fn_t
  ukvm_core_hypercalls : List (Option ukvm_hypercall_fn_t)
  UKVM_HYPERCALL_PIO_BASE : Nat
  UKVM_HYPERCALL_MAX : Nat

/-- What one `ioctl(VM_RUN)` hands back: the return value, `errno`, the exit
record written to `hvb->vmrun` and guest memory as the guest left it. -/
structure vm_run where
  ret : Int
  errno : Int
  vm_exit : vm_exit
  mem : guest_mem
  deriving DecidableEq, Repr

/-- What the run loop does that is observable from outside, in order: an
`ioctl` request, the invocation of the chain entry `ukvm_core_vmexits[i]`, and
the invocation of the handler `ukvm_core_hypercalls[nr]` with the address
`gpa`. -/
inductive event
  | ioctl (req : vmm_req)
  | vmexit (i : Nat)
  | hypercall (nr : Int) (gpa : Nat)
  deriving DecidableEq, Repr

/-- How far the run loop got on a script of `VM_RUN` results, with the trace
up to there: `running` when the script is used up and the loop is at its next
`VM_RUN`, `returned` for `return`, `fatal` for `err` and `errx` with their exit
status, `aborted` for a failed `assert`, `undefined` for a read of the
hypercall table outside the array. -/
inductive loop_result
  | running (hv : ukvm_hv) (tr : List event)
  | returned (hv : ukvm_hv) (tr : List event)
  | fatal (status : Nat) (tr : List event)
  | aborted (tr : List event)
  | undefined (tr : List event)
  deriving DecidableEq, Repr

/-- The outcome of one pass through the body of `while (1)`. -/
inductive iteration
  | continue_ (hv : ukvm_hv) (tr : List event)
  | stop (res : loop_result)
  deriving DecidableEq, Repr

/-- The handle after `ioctl(VM_RUN)` came back with `r`. -/
def vm_run.apply (r : vm_run) (hv : ukvm_hv) : ukvm_hv :=
  { hv with mem := r.mem, vm_exit := r.vm_exit }

/-- Reading `a[i]` for an `int` index: `none` when `i` is outside the array. -/
def array_read {α : Type} (a : List α) (i : Int) : Option α :=
  if 0 ≤ i then a.get? i.toNat else none

/-- The loop `for (fn = ukvm_core_vmexits; *fn && !handled; fn++)`, from the
entry with index `i` on: the value of `handled`, the handle and the trace. -/
def run_vmexits : List ukvm_vmexit_fn_t → Nat → ukvm_hv → List event →
    Bool × ukvm_hv × List event
  | [], _, hv, tr => (false, hv, tr)
  | fn :: fns, i, hv, tr =>
      if (fn hv).1 = 0 then (true, (fn hv).2, tr ++ [event.vmexit i])
      else run_vmexits fns (i + 1) (fn hv).2 (tr ++ [event.vmexit i])

/-- The statement `switch (vme->exitcode)` of the run loop. -/
def vmexit_switch (c : ukvm_core) (hv : ukvm_hv) (tr : List event) : iteration :=
  let vme := hv.vm_exit
  if vme.exitcode = VM_EXITCODE_SUSPENDED then
    iteration.stop (loop_result.returned hv tr)
  else if vme.exitcode = VM_EXITCODE_INOUT then
    if vme.u_inout.in_ ≠ 0 ∨ vme.u_inout.bytes ≠ 4 then
      iteration.stop (loop_result.fatal 1 tr)
    else if vme.u_inout.port < c.UKVM_HYPERCALL_PIO_BASE ∨
        vme.u_inout.port ≥ c.UKVM_HYPERCALL_PIO_BASE + c.UKVM_HYPERCALL_MAX then
      iteration.stop (loop_result.fatal 1 tr)
    else
      let nr : Int := (vme.u_inout.port : Int) - (c.UKVM_HYPERCALL_PIO_BASE : Int)
      match array_read c.ukvm_core_hypercalls nr with
      | none => iteration.stop (loop_result.undefined tr)
      | some none => iteration.stop (loop_result.fatal 1 tr)
      | some (some fn) =>
          let gpa := vme.u_inout.eax
          iteration.continue_ (fn hv gpa) (tr ++ [event.hypercall nr gpa])
  else if vme.exitcode = VM_EXITCODE_BOGUS then
    if vme.inst_length = 0 then iteration.continue_ hv tr
    else iteration.stop (loop_result.aborted tr)
  else if vme.exitcode = VM_EXITCODE_VMX then
    iteration.stop (loop_result.fatal 1 tr)
  else
    iteration.stop (loop_result.fatal 1 tr)

/-- The body of `while (1)` in `ukvm_hv_vcpu_loop`, with `r` the result of
this pass's `ioctl(VM_RUN)`. -/
def vcpu_loop_body (c : ukvm_core) (r : vm_run) (hv : ukvm_hv) (tr : List event) : iteration :=
  let tr := tr ++ [event.ioctl VM_RUN]
  let hv := r.apply hv
  if r.ret = -1 ∧ r.errno = EINTR then iteration.continue_ hv tr
  else if r.ret = -1 then iteration.stop (loop_result.fatal 1 tr)
  else
    match run_vmexits c.ukvm_core_vmexits 0 hv tr with
    | (true, hv, tr) => iteration.continue_ hv tr
    | (false, hv, tr) => vmexit_switch c hv tr

/-- `ukvm_hv_vcpu_loop` on a script of `VM_RUN` results; when the script is
used up the loop is about to run the guest again, which is `running`. -/
def ukvm_hv_vcpu_loop (c : ukvm_core) : List vm_run → ukvm_hv → List event → loop_result
  | [], hv, tr => loop_result.running hv tr
  | r :: rs, hv, tr =>
      match vcpu_loop_body c r hv tr with
      | iteration.continue_ hv1 tr1 => ukvm_hv_vcpu_loop c rs hv1 tr1
      | iteration.stop res => res

/-- The handle the handlers of `fns` leave behind when they are invoked in
order and every one of them reports that it has not handled the exit; `none`
when one of them reports that it has. -/
def vmexits_decline : List ukvm_vmexit_fn_t → ukvm_hv → Option ukvm_hv
  | [], hv => some hv
  | fn :: fns, hv => if (fn hv).1 = 0 then none else vmexits_decline fns (fn hv).2

/-- The trace of invoking the chain entries `i`, ..., `i + n - 1` once each, in order. -/
def vmexit_events (i n : Nat) : List event := (List.range' i n).map event.vmexit

/-- The trace `tr` extended by one `ioctl(VM_RUN)` and the invocation, in
order, of the first `n` entries of the exit-handler chain. -/
def trace_after_vmexits (tr : List event) (n : Nat) : List event :=
  tr ++ ([event.ioctl VM_RUN] ++ vmexit_events 0 n)

/-- The hypercall handlers a trace records as invoked. -/
def hypercalls_of (tr : List event) : List (Int × Nat) :=
  tr.filterMap fun e =>
    match e with
    | event.hypercall nr gpa => some (nr, gpa)
    | _ => none

/-- How often a trace records `ioctl(VM_RUN)`. -/
def vm_runs_of (tr : List event) : Nat := tr.count (event.ioctl VM_RUN)

/-! ## Predicates used in the statements -/

/-- The fields of a segment description that go into the access-rights word
fit the widths the hardware format gives them. -/
def sreg_fits (sreg : x86_sreg) : Prop :=
  sreg.type < 16 ∧ sreg.dpl < 4 ∧ sreg.s < 2 ∧ sreg.p < 2 ∧ sreg.l < 2 ∧ sreg.db < 2 ∧
    sreg.g < 2 ∧ sreg.unusable < 2

instance (sreg : x86_sreg) : Decidable (sreg_fits sreg) := by
  unfold sreg_fits
  infer_instance

/-- The requests `s1` has logged beyond those of `s`. -/
def issued (s s1 : vmm) : List vmm_req := s1.log.drop s.log.length

/-- The virtual CPUs for which a list of requests asks `VM_ACTIVATE_CPU`, in order. -/
def activations (l : List vmm_req) : List Nat :=
  l.filterMap fun r =>
    match r with
    | VM_ACTIVATE_CPU v => some v
    | _ => none

/-- A computation started in `s` ends in a state that satisfies `P` together
with its value, or in a fatal exit that satisfies `Pf` together with its status. -/
def M.ends {α : Type} (m : M α) (s : vmm) (P : α → vmm → Prop) (Pf : Nat → vmm → Prop) :
    Prop :=
  match m s with
  | run.ok a s1 => P a s1
  | run.fatal st s1 => Pf st s1

/-- A port access is a well-formed hypercall: a write of four bytes to a port
of the hypercall range whose table slot holds a handler. -/
def valid_hypercall (c : ukvm_core) (vme : vm_exit) : Prop :=
  vme.exitcode = VM_EXITCODE_INOUT ∧ vme.u_inout.in_ = 0 ∧ vme.u_inout.bytes = 4 ∧
    c.UKVM_HYPERCALL_PIO_BASE ≤ vme.u_inout.port ∧
    vme.u_inout.port < c.UKVM_HYPERCALL_PIO_BASE + c.UKVM_HYPERCALL_MAX ∧
    ∃ fn, c.ukvm_core_hypercalls.get? (vme.u_inout.port - c.UKVM_HYPERCALL_PIO_BASE) =
      some (some fn)

/-- A port access is malformed: a read, or not four bytes wide, or to a port
outside the hypercall range, or to a port of the range whose table slot is empty. -/
def malformed_hypercall (c : ukvm_core) (vme : vm_exit) : Prop :=
  vme.exitcode = VM_EXITCODE_INOUT ∧
    (vme.u_inout.in_ ≠ 0 ∨ vme.u_inout.bytes ≠ 4 ∨
      vme.u_inout.port < c.UKVM_HYPERCALL_PIO_BASE ∨
      c.UKVM_HYPERCALL_PIO_BASE + c.UKVM_HYPERCALL_MAX ≤ vme.u_inout.port ∨
      c.ukvm_core_hypercalls.get? (vme.u_inout.port - c.UKVM_HYPERCALL_PIO_BASE) = some none)

/-! ## Sample instances, used to evaluate the definitions on concrete inputs -/

/-- A flat 64-bit code segment. -/
def sample_sreg_code : x86_sreg :=
  { selector := 1, base := 0, limit := 0xfffff, type := 11, p := 1, dpl := 0, db := 0, s := 1,
    l := 1, g := 1, avl := 0, unusable := 0 }

/-- A flat data segment. -/
def sample_sreg_data : x86_sreg :=
  { selector := 2, base := 0, limit := 0xfffff, type := 3, p := 1, dpl := 0, db := 1, s := 1,
    l := 0, g := 1, avl := 0, unusable := 0 }

/-- A task register description. -/
def sample_sreg_tr : x86_sreg :=
  { selector := 0, base := 0, limit := 0, type := 11, p := 1, dpl := 0, db := 0, s := 0,
    l := 0, g := 0, avl := 0, unusable := 0 }

/-- An unusable segment. -/
def sample_sreg_unusable : x86_sreg :=
  { selector := 0, base := 0, limit := 0, type := 0, p := 0, dpl := 0, db := 0, s := 0,
    l := 0, g := 0, avl := 0, unusable := 1 }

/-- An instance of the x86_64 parameters; the set-up routines leave a mark in
the uninterpreted part of guest memory. -/
def sample_x86 : ukvm_cpu_x86_64 :=
  { X86_CR0_INIT := 0x80010001
    X86_CR3_INIT := 0x2000
    X86_CR4_INIT := 0x20
    X86_EFER_INIT := 0x500
    X86_RFLAGS_INIT := 0x2
    X86_GDT_BASE := 0x1000
    X86_GDTR_LIMIT := 0x1f
    X86_BOOT_INFO_BASE := 0x5000
    X86_CMDLINE_BASE := 0x6000
    X86_SREG_UNUSABLE_BIT := 16
    ukvm_x86_sreg_code := sample_sreg_code
    ukvm_x86_sreg_data := sample_sreg_data
    ukvm_x86_sreg_tr := sample_sreg_tr
    ukvm_x86_sreg_unusable := sample_sreg_unusable
    ukvm_x86_setup_gdt := fun m => { m with bytes := 1 :: m.bytes }
    ukvm_x86_setup_pagetables := fun m sz => { m with bytes := sz :: m.bytes } }

/-- A host on which every request succeeds, with an invariant timestamp
counter running at `freq`. -/
def sample_host (freq : Nat) : host :=
  { ioctl := fun _ => 0, sysctlbyname := fun _ => 0, tsc_freq := freq, invariant_tsc := 1 }

/-- A host whose timestamp counter is not invariant. -/
def sample_host_variant_tsc : host :=
  { ioctl := fun _ => 0, sysctlbyname := fun _ => 0, tsc_freq := 2000000000, invariant_tsc := 0 }

/-- An exit record with only the exit code set. -/
def sample_exit (exitcode : Nat) : vm_exit :=
  { exitcode := exitcode, inst_length := 0, rip := 0x100000,
    u_inout := { bytes := 0, in_ := 0, port := 0, eax := 0 } }

/-- A port access of `bytes` bytes to `port`; `in_` is 1 for a read. -/
def sample_inout (bytes in_ port eax : Nat) : vm_exit :=
  { exitcode := VM_EXITCODE_INOUT, inst_length := 2, rip := 0x100000,
    u_inout := { bytes := bytes, in_ := in_, port := port, eax := eax } }

/-- Guest memory with an empty boot-info record. -/
def sample_mem : guest_mem :=
  { boot_info := { mem_size := 0, kernel_end := 0, cmdline := 0, cpu := { tsc_freq := 0 } },
    bytes := [] }

/-- A handle of `mem_size` bytes before boot construction. -/
def sample_hv (mem_size : Nat) : ukvm_hv :=
  { mem := sample_mem, mem_size := mem_size, vm_exit := sample_exit 0 }

/-- A successful `VM_RUN` that stops with the exit record `vme`. -/
def sample_run (vme : vm_exit) : vm_run :=
  { ret := 0, errno := 0, vm_exit := vme, mem := sample_mem }

/-- A failed `VM_RUN` with the given `errno`. -/
def sample_run_failed (errno : Int) : vm_run :=
  { ret := -1, errno := errno, vm_exit := sample_exit 0, mem := sample_mem }

/-- An exit handler that never handles the exit and leaves a mark in guest memory. -/
def sample_vmexit_decline : ukvm_vmexit_fn_t :=
  fun hv => (-1, { hv with mem := { hv.mem with bytes := 7 :: hv.mem.bytes } })

/-- An exit handler that handles every exit. -/
def sample_vmexit_claim : ukvm_vmexit_fn_t := fun hv => (0, hv)

/-- A hypercall handler that records the address it was given in guest memory. -/
def sample_hypercall : ukvm_hypercall_fn_t :=
  fun hv gpa => { hv with mem := { hv.mem with bytes := gpa :: hv.mem.bytes } }

/-- A monitor with the given exit-handler chain, ten hypercall numbers from
port `0x500` on, and handlers registered for the numbers 1 and 3. -/
def sample_core (chain : List ukvm_vmexit_fn_t) : ukvm_core :=
  { ukvm_core_vmexits := chain
    ukvm_core_hypercalls :=
      [none, some sample_hypercall, none, some sample_hypercall, none, none, none, none, none,
        none]
    UKVM_HYPERCALL_PIO_BASE := 0x500
    UKVM_HYPERCALL_MAX := 10 }

/-! ## Boot construction: lemmas and claims -/

theorem M_bind_apply {α β : Type} (m : M α) (f : α → M β) (s : vmm) :
    (m >>= f) s = (m s).and_then f := rfl

theorem M_pure_apply {α : Type} (a : α) (s : vmm) : (pure a : M α) s = run.ok a s := rfl

theorem ends_pure {α : Type} (a : α) (s : vmm) (P : α → vmm → Prop) (Pf : Nat → vmm → Prop)
    (hP : P a s) : (pure a : M α).ends s P Pf := hP

theorem ends_err {α : Type} (st : Nat) (s : vmm) (P : α → vmm → Prop) (Pf : Nat → vmm → Prop)
    (hf : Pf st s) : (err st : M α).ends s P Pf := hf

theorem ends_ite {α : Type} (c : Prop) [Decidable c] (a b : M α) (s : vmm)
    (P : α → vmm → Prop) (Pf : Nat → vmm → Prop)
    (ha : c → a.ends s P Pf) (hb : ¬c → b.ends s P Pf) :
    (if c then a else b).ends s P Pf := by
  split_ifs with hc
  · exact ha hc
  · exact hb hc

theorem ends_bind {α β : Type} (m : M α) (f : α → M β) (s : vmm) (P1 : α → vmm → Prop)
    (P : β → vmm → Prop) (Pf : Nat → vmm → Prop) (hm : m.ends s P1 Pf)
    (hk : ∀ a s1, P1 a s1 → (f a).ends s1 P Pf) : (m >>= f).ends s P Pf := by
  unfold M.ends at hm ⊢
  rw [M_bind_apply]
  cases hms : m s with
  | ok a s1 =>
    rw [hms] at hm
    exact hk a s1 hm
  | fatal st s1 =>
    rw [hms] at hm
    exact hm

theorem ends_get_hv_bind {β : Type} (f : ukvm_hv → M β) (s : vmm) (P : β → vmm → Prop)
    (Pf : Nat → vmm → Prop) (hk : (f s.hv).ends s P Pf) : (get_hv >>= f).ends s P Pf := hk

theorem ends_set_mem_bind {β : Type} (m : guest_mem) (f : Unit → M β) (s : vmm)
    (P : β → vmm → Prop) (Pf : Nat → vmm → Prop)
    (hk : (f ()).ends { s with hv := { s.hv with mem := m } } P Pf) :
    (set_mem m >>= f).ends s P Pf := hk

theorem ends_set_boot_info_bind {β : Type} (bi : ukvm_boot_info) (f : Unit → M β) (s : vmm)
    (P : β → vmm → Prop) (Pf : Nat → vmm → Prop)
    (hk : (f ()).ends
      { s with hv := { s.hv with mem := { s.hv.mem with boot_info := bi } } } P Pf) :
    (set_boot_info bi >>= f).ends s P Pf := hk

theorem ends_ioctl_bind {β : Type} (h : host) (req : vmm_req) (f : Int → M β) (hv : ukvm_hv)
    (l0 l : List vmm_req) (P : β → vmm → Prop) (Pf : Nat → vmm → Prop)
    (hk : (f (h.ioctl req)).ends ⟨hv, l0 ++ (l ++ [req])⟩ P Pf) :
    (ioctl h req >>= f).ends ⟨hv, l0 ++ l⟩ P Pf := by
  unfold M.ends at hk ⊢
  rw [M_bind_apply]
  simpa [ioctl, run.and_then, List.append_assoc] using hk

theorem ends_vmm_set_reg (h : host) (reg : vm_reg_name) (val : Nat) (hv : ukvm_hv)
    (l0 l : List vmm_req) (Pf : Nat → vmm → Prop)
    (hf : Pf 1 ⟨hv, l0 ++ (l ++ [VM_SET_REGISTER 0 reg val])⟩) :
    (vmm_set_reg h reg val).ends ⟨hv, l0 ++ l⟩
      (fun _ s1 => s1 = ⟨hv, l0 ++ (l ++ [VM_SET_REGISTER 0 reg val])⟩) Pf := by
  unfold vmm_set_reg
  refine ends_ioctl_bind h _ _ hv l0 l _ Pf ?_
  exact ends_ite _ _ _ _ _ _ (fun _ => hf) (fun _ => rfl)

theorem ends_vmm_set_desc (h : host) (reg : vm_reg_name) (base limit access : Nat)
    (hv : ukvm_hv) (l0 l : List vmm_req) (Pf : Nat → vmm → Prop)
    (hf : Pf 1 ⟨hv, l0 ++ (l ++ [VM_SET_SEGMENT_DESCRIPTOR 0 reg base limit access])⟩) :
    (vmm_set_desc h reg base limit access).ends ⟨hv, l0 ++ l⟩
      (fun _ s1 => s1 = ⟨hv, l0 ++ (l ++ [VM_SET_SEGMENT_DESCRIPTOR 0 reg base limit access])⟩)
      Pf := by
  unfold vmm_set_desc
  refine ends_ioctl_bind h _ _ hv l0 l _ Pf ?_
  exact ends_ite _ _ _ _ _ _ (fun _ => hf) (fun _ => rfl)

theorem ends_vmm_set_sreg (x : ukvm_cpu_x86_64) (h : host) (reg : vm_reg_name)
    (sreg : x86_sreg) (hv : ukvm_hv) (l0 l : List vmm_req) (Pf : Nat → vmm → Prop)
    (hf1 : Pf 1 ⟨hv, l0 ++
      (l ++ [VM_SET_SEGMENT_DESCRIPTOR 0 reg sreg.base sreg.limit (sreg_access x sreg)])⟩)
    (hf2 : Pf 1 ⟨hv, l0 ++
      ((l ++ [VM_SET_SEGMENT_DESCRIPTOR 0 reg sreg.base sreg.limit (sreg_access x sreg)]) ++
        [VM_SET_REGISTER 0 reg (sreg.selector * 8)])⟩) :
    (vmm_set_sreg x h reg sreg).ends ⟨hv, l0 ++ l⟩
      (fun _ s1 => s1 = ⟨hv, l0 ++
        ((l ++ [VM_SET_SEGMENT_DESCRIPTOR 0 reg sreg.base sreg.limit (sreg_access x sreg)]) ++
          [VM_SET_REGISTER 0 reg (sreg.selector * 8)])⟩) Pf := by
  unfold vmm_set_sreg
  refine ends_bind _ _ _ _ _ Pf (ends_vmm_set_desc h reg _ _ _ hv l0 l Pf hf1) ?_
  intro _ s1 hs1
  subst hs1
  exact ends_vmm_set_reg h reg _ hv l0 _ Pf hf2

theorem ends_vmm_set_reg_bind {β : Type} (h : host) (reg : vm_reg_name) (val : Nat)
    (f : Unit → M β) (hv : ukvm_hv) (l0 l : List vmm_req) (P : β → vmm → Prop)
    (Pf : Nat → vmm → Prop)
    (hf : Pf 1 ⟨hv, l0 ++ (l ++ [VM_SET_REGISTER 0 reg val])⟩)
    (hk : (f ()).ends ⟨hv, l0 ++ (l ++ [VM_SET_REGISTER 0 reg val])⟩ P Pf) :
    (vmm_set_reg h reg val >>= f).ends ⟨hv, l0 ++ l⟩ P Pf := by
  refine ends_bind _ _ _ _ _ Pf (ends_vmm_set_reg h reg val hv l0 l Pf hf) ?_
  intro _ s1 hs1
  subst hs1
  exact hk

theorem ends_vmm_set_desc_bind {β : Type} (h : host) (reg : vm_reg_name)
    (base limit access : Nat) (f : Unit → M β) (hv : ukvm_hv) (l0 l : List vmm_req)
    (P : β → vmm → Prop) (Pf : Nat → vmm → Prop)
    (hf : Pf 1 ⟨hv, l0 ++ (l ++ [VM_SET_SEGMENT_DESCRIPTOR 0 reg base limit access])⟩)
    (hk : (f ()).ends ⟨hv, l0 ++ (l ++ [VM_SET_SEGMENT_DESCRIPTOR 0 reg base limit access])⟩
      P Pf) :
    (vmm_set_desc h reg base limit access >>= f).ends ⟨hv, l0 ++ l⟩ P Pf := by
  refine ends_bind _ _ _ _ _ Pf (ends_vmm_set_desc h reg base limit access hv l0 l Pf hf) ?_
  intro _ s1 hs1
  subst hs1
  exact hk

theorem ends_vmm_set_sreg_bind {β : Type} (x : ukvm_cpu_x86_64) (h : host)
    (reg : vm_reg_name) (sreg : x86_sreg) (f : Unit → M β) (hv : ukvm_hv)
    (l0 l : List vmm_req) (P : β → vmm → Prop) (Pf : Nat → vmm → Prop)
    (hf1 : Pf 1 ⟨hv, l0 ++
      (l ++ [VM_SET_SEGMENT_DESCRIPTOR 0 reg sreg.base sreg.limit (sreg_access x sreg)])⟩)
    (hf2 : Pf 1 ⟨hv, l0 ++
      ((l ++ [VM_SET_SEGMENT_DESCRIPTOR 0 reg sreg.base sreg.limit (sreg_access x sreg)]) ++
        [VM_SET_REGISTER 0 reg (sreg.selector * 8)])⟩)
    (hk : (f ()).ends ⟨hv, l0 ++
      ((l ++ [VM_SET_SEGMENT_DESCRIPTOR 0 reg sreg.base sreg.limit (sreg_access x sreg)]) ++
        [VM_SET_REGISTER 0 reg (sreg.selector * 8)])⟩ P Pf) :
    (vmm_set_sreg x h reg sreg >>= f).ends ⟨hv, l0 ++ l⟩ P Pf := by
  refine ends_bind _ _ _ _ _ Pf (ends_vmm_set_sreg x h reg sreg hv l0 l Pf hf1 hf2) ?_
  intro _ s1 hs1
  subst hs1
  exact hk

/-- Boot construction from the handle `hv` with `l0` already logged: a
successful run returns the command-line offset, has found the counter
invariant, leaves the handle written out here and has logged exactly
`boot_requests`; every other run ends with exit status 1 having logged an
initial part of `boot_requests`, without any activation when the counter is
not invariant. -/
theorem vcpu_init_ends (x : ukvm_cpu_x86_64) (h : host) (gpa_ep gpa_kend : Nat) (hv : ukvm_hv)
    (l0 : List vmm_req) :
    (ukvm_hv_vcpu_init x h gpa_ep gpa_kend).ends ⟨hv, l0⟩
      (fun c s1 => c = x.X86_CMDLINE_BASE ∧ h.invariant_tsc = 1 ∧
        s1.hv =
          { mem :=
              { boot_info :=
                  { mem_size := hv.mem_size, kernel_end := gpa_kend,
                    cmdline := x.X86_CMDLINE_BASE, cpu := { tsc_freq := h.tsc_freq } }
                bytes :=
                  (x.ukvm_x86_setup_pagetables (x.ukvm_x86_setup_gdt hv.mem) hv.mem_size).bytes }
            mem_size := hv.mem_size
            vm_exit := hv.vm_exit } ∧
        s1.log = l0 ++ boot_requests x hv.mem_size gpa_ep)
      (fun st s1 => st = 1 ∧ ∃ l, s1.log = l0 ++ l ∧ l <+: boot_requests x hv.mem_size gpa_ep ∧
        (h.invariant_tsc ≠ 1 → activations l = [])) := by
  have hnil : (⟨hv, l0⟩ : vmm) = ⟨hv, l0 ++ []⟩ := by rw [List.append_nil]
  rw [hnil]
  unfold ukvm_hv_vcpu_init
  refine ends_get_hv_bind _ _ _ _ ?_
  refine ends_set_mem_bind _ _ _ _ _ ?_
  refine ends_get_hv_bind _ _ _ _ ?_
  refine ends_set_mem_bind _ _ _ _ _ ?_
  refine ends_vmm_set_reg_bind _ _ _ _ _ _ _ _ _ ⟨rfl, _, rfl, ⟨_, rfl⟩, fun _ => rfl⟩ ?_
  simp only [List.cons_append, List.nil_append]
  refine ends_vmm_set_reg_bind _ _ _ _ _ _ _ _ _ ⟨rfl, _, rfl, ⟨_, rfl⟩, fun _ => rfl⟩ ?_
  simp only [List.cons_append, List.nil_append]
  refine ends_vmm_set_reg_bind _ _ _ _ _ _ _ _ _ ⟨rfl, _, rfl, ⟨_, rfl⟩, fun _ => rfl⟩ ?_
  simp only [List.cons_append, List.nil_append]
  refine ends_vmm_set_reg_bind _ _ _ _ _ _ _ _ _ ⟨rfl, _, rfl, ⟨_, rfl⟩, fun _ => rfl⟩ ?_
  simp only [List.cons_append, List.nil_append]
  refine ends_vmm_set_sreg_bind _ _ _ _ _ _ _ _ _ _
    ⟨rfl, _, rfl, ⟨_, rfl⟩, fun _ => rfl⟩
    ⟨rfl, _, rfl, ⟨_, rfl⟩, fun _ => rfl⟩ ?_
  simp only [List.cons_append, List.nil_append]
  refine ends_vmm_set_sreg_bind _ _ _ _ _ _ _ _ _ _
    ⟨rfl, _, rfl, ⟨_, rfl⟩, fun _ => rfl⟩
    ⟨rfl, _, rfl, ⟨_, rfl⟩, fun _ => rfl⟩ ?_
  simp only [List.cons_append, List.nil_append]
  refine ends_vmm_set_sreg_bind _ _ _ _ _ _ _ _ _ _
    ⟨rfl, _, rfl, ⟨_, rfl⟩, fun _ => rfl⟩
    ⟨rfl, _, rfl, ⟨_, rfl⟩, fun _ => rfl⟩ ?_
  simp only [List.cons_append, List.nil_append]
  refine ends_vmm_set_sreg_bind _ _ _ _ _ _ _ _ _ _
    ⟨rfl, _, rfl, ⟨_, rfl⟩, fun _ => rfl⟩
    ⟨rfl, _, rfl, ⟨_, rfl⟩, fun _ => rfl⟩ ?_
  simp only [List.cons_append, List.nil_append]
  refine ends_vmm_set_sreg_bind _ _ _ _ _ _ _ _ _ _
    ⟨rfl, _, rfl, ⟨_, rfl⟩, fun _ => rfl⟩
    ⟨rfl, _, rfl, ⟨_, rfl⟩, fun _ => rfl⟩ ?_
  simp only [List.cons_append, List.nil_append]
  refine ends_vmm_set_sreg_bind _ _ _ _ _ _ _ _ _ _
    ⟨rfl, _, rfl, ⟨_, rfl⟩, fun _ => rfl⟩
    ⟨rfl, _, rfl, ⟨_, rfl⟩, fun _ => rfl⟩ ?_
  simp only [List.cons_append, List.nil_append]
  refine ends_vmm_set_desc_bind _ _ _ _ _ _ _ _ _ _ _ ⟨rfl, _, rfl, ⟨_, rfl⟩, fun _ => rfl⟩ ?_
  simp only [List.cons_append, List.nil_append]
  refine ends_vmm_set_sreg_bind _ _ _ _ _ _ _ _ _ _
    ⟨rfl, _, rfl, ⟨_, rfl⟩, fun _ => rfl⟩
    ⟨rfl, _, rfl, ⟨_, rfl⟩, fun _ => rfl⟩ ?_
  simp only [List.cons_append, List.nil_append]
  refine ends_vmm_set_sreg_bind _ _ _ _ _ _ _ _ _ _
    ⟨rfl, _, rfl, ⟨_, rfl⟩, fun _ => rfl⟩
    ⟨rfl, _, rfl, ⟨_, rfl⟩, fun _ => rfl⟩ ?_
  simp only [List.cons_append, List.nil_append]
  refine ends_get_hv_bind _ _ _ _ ?_
  refine ends_set_boot_info_bind _ _ _ _ _ ?_
  refine ends_get_hv_bind _ _ _ _ ?_
  refine ends_set_boot_info_bind _ _ _ _ _ ?_
  refine ends_get_hv_bind _ _ _ _ ?_
  refine ends_set_boot_info_bind _ _ _ _ _ ?_
  refine ends_ite _ _ _ _ _ _ (fun _ => ends_err _ _ _ _ ⟨rfl, _, rfl, ⟨_, rfl⟩, fun _ => rfl⟩) (fun _ => ?_)
  refine ends_get_hv_bind _ _ _ _ ?_
  refine ends_set_boot_info_bind _ _ _ _ _ ?_
  refine ends_ite _ _ _ _ _ _ (fun _ => ends_err _ _ _ _ ⟨rfl, _, rfl, ⟨_, rfl⟩, fun _ => rfl⟩) (fun _ => ?_)
  refine ends_ite _ _ _ _ _ _ (fun _ => ends_err _ _ _ _ ⟨rfl, _, rfl, ⟨_, rfl⟩, fun _ => rfl⟩) (fun hinv => ?_)
  refine ends_vmm_set_reg_bind _ _ _ _ _ _ _ _ _ ⟨rfl, _, rfl, ⟨_, rfl⟩, fun hne => absurd hne hinv⟩ ?_
  simp only [List.cons_append, List.nil_append]
  refine ends_vmm_set_reg_bind _ _ _ _ _ _ _ _ _ ⟨rfl, _, rfl, ⟨_, rfl⟩, fun hne => absurd hne hinv⟩ ?_
  simp only [List.cons_append, List.nil_append]
  refine ends_get_hv_bind _ _ _ _ ?_
  refine ends_vmm_set_reg_bind _ _ _ _ _ _ _ _ _ ⟨rfl, _, rfl, ⟨_, rfl⟩, fun hne => absurd hne hinv⟩ ?_
  simp only [List.cons_append, List.nil_append]
  refine ends_vmm_set_reg_bind _ _ _ _ _ _ _ _ _ ⟨rfl, _, rfl, ⟨_, rfl⟩, fun hne => absurd hne hinv⟩ ?_
  simp only [List.cons_append, List.nil_append]
  refine ends_ioctl_bind _ _ _ _ _ _ _ _ ?_
  simp only [List.cons_append, List.nil_append]
  refine ends_ite _ _ _ _ _ _ (fun _ => ends_err _ _ _ _ ⟨rfl, _, rfl, ⟨_, rfl⟩, fun hne => absurd hne hinv⟩) (fun _ => ?_)
  exact ends_pure _ _ _ _ ⟨rfl, Decidable.not_not.mp hinv, rfl, rfl⟩

theorem vcpu_init_ok (x : ukvm_cpu_x86_64) (h : host) (gpa_ep gpa_kend : Nat) (s s1 : vmm)
    (c : Nat) (hok : ukvm_hv_vcpu_init x h gpa_ep gpa_kend s = run.ok c s1) :
    c = x.X86_CMDLINE_BASE ∧ h.invariant_tsc = 1 ∧
    s1.hv =
      { mem :=
          { boot_info :=
              { mem_size := s.hv.mem_size, kernel_end := gpa_kend,
                cmdline := x.X86_CMDLINE_BASE, cpu := { tsc_freq := h.tsc_freq } }
            bytes :=
              (x.ukvm_x86_setup_pagetables (x.ukvm_x86_setup_gdt s.hv.mem) s.hv.mem_size).bytes }
        mem_size := s.hv.mem_size
        vm_exit := s.hv.vm_exit } ∧
    s1.log = s.log ++ boot_requests x s.hv.mem_size gpa_ep := by
  have key := vcpu_init_ends x h gpa_ep gpa_kend s.hv s.log
  unfold M.ends at key
  rw [hok] at key
  exact key

theorem vcpu_init_fatal (x : ukvm_cpu_x86_64) (h : host) (gpa_ep gpa_kend : Nat) (s s1 : vmm)
    (st : Nat) (hf : ukvm_hv_vcpu_init x h gpa_ep gpa_kend s = run.fatal st s1) :
    st = 1 ∧ ∃ l, s1.log = s.log ++ l ∧ l <+: boot_requests x s.hv.mem_size gpa_ep ∧
      (h.invariant_tsc ≠ 1 → activations l = []) := by
  have key := vcpu_init_ends x h gpa_ep gpa_kend s.hv s.log
  unfold M.ends at key
  rw [hf] at key
  exact key

theorem reg_value_append (cpuid : Nat) (r : vm_reg_name) (l1 l2 : List vmm_req) :
    reg_value cpuid r (l1 ++ l2) =
      match reg_value cpuid r l2 with
      | some w => some w
      | none => reg_value cpuid r l1 := by
  induction l1 with
  | nil => rw [List.nil_append]; simp only [reg_value]; cases reg_value cpuid r l2 <;> rfl
  | cons a l1 ih =>
    rw [List.cons_append]
    cases a <;>
      (simp only [reg_value]; rw [ih]; try (cases reg_value cpuid r l2 <;> rfl))

theorem issued_append (s s1 : vmm) (l : List vmm_req) (hlog : s1.log = s.log ++ l) :
    issued s s1 = l := by
  simp [issued, hlog]

theorem sub64_of_le (m : Nat) (h8 : 8 ≤ m) (hm : m < 2 ^ 64) : sub64 m 8 = m - 8 := by
  unfold sub64
  omega

/-- C5. After a successful `ukvm_hv_vcpu_init`, for every handle, entry
address and kernel end: RIP holds the entry address, RSP holds the memory size
minus 8 as `hv->mem_size - 8` computes it in 64 bits (the plain difference as
soon as the memory size is at least 8 and fits 64 bits), RDI holds
`X86_BOOT_INFO_BASE`, and the boot-info record in guest memory has `mem_size`
the memory size of the handle and `kernel_end` the kernel end given. -/
theorem vcpu_init_boot_state (x : ukvm_cpu_x86_64) (h : host) (gpa_ep gpa_kend : Nat)
    (s s1 : vmm) (c : Nat) (hok : ukvm_hv_vcpu_init x h gpa_ep gpa_kend s = run.ok c s1) :
    reg_value 0 VM_REG_GUEST_RIP s1.log = some gpa_ep ∧
    reg_value 0 VM_REG_GUEST_RSP s1.log = some (sub64 s.hv.mem_size 8) ∧
    (8 ≤ s.hv.mem_size → s.hv.mem_size < 2 ^ 64 →
      reg_value 0 VM_REG_GUEST_RSP s1.log = some (s.hv.mem_size - 8)) ∧
    reg_value 0 VM_REG_GUEST_RDI s1.log = some x.X86_BOOT_INFO_BASE ∧
    s1.hv.mem.boot_info.mem_size = s.hv.mem_size ∧
    s1.hv.mem.boot_info.kernel_end = gpa_kend ∧
    s1.hv.mem_size = s.hv.mem_size := by
  obtain ⟨-, -, hhv, hlog⟩ := vcpu_init_ok x h gpa_ep gpa_kend s s1 c hok
  have hrip : reg_value 0 VM_REG_GUEST_RIP s1.log = some gpa_ep := by
    rw [hlog, reg_value_append]; rfl
  have hrsp : reg_value 0 VM_REG_GUEST_RSP s1.log = some (sub64 s.hv.mem_size 8) := by
    rw [hlog, reg_value_append]; rfl
  have hrdi : reg_value 0 VM_REG_GUEST_RDI s1.log = some x.X86_BOOT_INFO_BASE := by
    rw [hlog, reg_value_append]; rfl
  refine ⟨hrip, hrsp, ?_, hrdi, ?_, ?_, ?_⟩
  · intro h8 hm
    rw [hrsp, sub64_of_le _ h8 hm]
  · rw [hhv]
  · rw [hhv]
  · rw [hhv]

/-- C5, on the sample handle of `0x200000` bytes with entry `0x100000` and
kernel end `0x150000`: the run succeeds, RIP is `0x100000`, RSP is `0x1FFFF8`,
RDI is the boot-info address and the record holds `0x200000` and `0x150000`. -/
theorem vcpu_init_boot_state_witness :
    ∃ c s1, ukvm_hv_vcpu_init sample_x86 (sample_host 2000000000) 0x100000 0x150000
        ⟨sample_hv 0x200000, []⟩ = run.ok c s1 ∧
      reg_value 0 VM_REG_GUEST_RIP s1.log = some 0x100000 ∧
      reg_value 0 VM_REG_GUEST_RSP s1.log = some 0x1FFFF8 ∧
      reg_value 0 VM_REG_GUEST_RDI s1.log = some 0x5000 ∧
      s1.hv.mem.boot_info.mem_size = 0x200000 ∧
      s1.hv.mem.boot_info.kernel_end = 0x150000 :=
  have hok : ukvm_hv_vcpu_init sample_x86 (sample_host 2000000000) 0x100000 0x150000
      ⟨sample_hv 0x200000, []⟩ = run.ok _ _ := rfl
  have key := vcpu_init_boot_state sample_x86 (sample_host 2000000000) 0x100000 0x150000
    ⟨sample_hv 0x200000, []⟩ _ _ hok
  ⟨_, _, hok, key.1, key.2.2.1 (by decide) (by decide), key.2.2.2.1, key.2.2.2.2.1,
    key.2.2.2.2.2.1⟩

/-- C6. On a host that reports the timestamp counter as not invariant
(`kern.timecounter.invariant_tsc` is 0), `ukvm_hv_vcpu_init` ends in a fatal
exit with status 1 and has issued no `VM_ACTIVATE_CPU` by then; a successful
run has issued `VM_ACTIVATE_CPU` exactly once, for virtual CPU 0. -/
theorem vcpu_init_invariant_tsc (x : ukvm_cpu_x86_64) (h : host) (gpa_ep gpa_kend : Nat)
    (s : vmm) :
    (h.invariant_tsc = 0 →
      ∃ s1, ukvm_hv_vcpu_init x h gpa_ep gpa_kend s = run.fatal 1 s1 ∧
        activations (issued s s1) = []) ∧
    (∀ c s1, ukvm_hv_vcpu_init x h gpa_ep gpa_kend s = run.ok c s1 →
      activations (issued s s1) = [0]) := by
  constructor
  · intro h0
    have hne : h.invariant_tsc ≠ 1 := by rw [h0]; decide
    cases hr : ukvm_hv_vcpu_init x h gpa_ep gpa_kend s with
    | ok c s1 =>
      exact absurd (vcpu_init_ok x h gpa_ep gpa_kend s s1 c hr).2.1 hne
    | fatal st s1 =>
      obtain ⟨hst, l, hlog, -, hact⟩ := vcpu_init_fatal x h gpa_ep gpa_kend s s1 st hr
      subst hst
      exact ⟨s1, rfl, by rw [issued_append s s1 l hlog]; exact hact hne⟩
  · intro c s1 hok
    obtain ⟨-, -, -, hlog⟩ := vcpu_init_ok x h gpa_ep gpa_kend s s1 c hok
    rw [issued_append s s1 _ hlog]
    rfl

/-- C6, on the sample hosts: without an invariant counter the run is fatal
with no activation issued, with one the run succeeds and activates CPU 0 once. -/
theorem vcpu_init_invariant_tsc_witness :
    (∃ s1, ukvm_hv_vcpu_init sample_x86 sample_host_variant_tsc 0x100000 0x150000
        ⟨sample_hv 0x200000, []⟩ = run.fatal 1 s1 ∧
      activations (issued ⟨sample_hv 0x200000, []⟩ s1) = []) ∧
    (∃ c s1, ukvm_hv_vcpu_init sample_x86 (sample_host 2000000000) 0x100000 0x150000
        ⟨sample_hv 0x200000, []⟩ = run.ok c s1 ∧
      activations (issued ⟨sample_hv 0x200000, []⟩ s1) = [0]) :=
  ⟨(vcpu_init_invariant_tsc sample_x86 sample_host_variant_tsc 0x100000 0x150000
      ⟨sample_hv 0x200000, []⟩).1 rfl,
   ⟨_, _, rfl, (vcpu_init_invariant_tsc sample_x86 (sample_host 2000000000) 0x100000 0x150000
      ⟨sample_hv 0x200000, []⟩).2 _ _ rfl⟩⟩

theorem vcpu_init_issued_initial (x : ukvm_cpu_x86_64) (h : host) (gpa_ep gpa_kend : Nat)
    (s : vmm) :
    issued s (ukvm_hv_vcpu_init x h gpa_ep gpa_kend s).state <+:
      boot_requests x s.hv.mem_size gpa_ep := by
  cases hr : ukvm_hv_vcpu_init x h gpa_ep gpa_kend s with
  | ok c s1 =>
    obtain ⟨-, -, -, hlog⟩ := vcpu_init_ok x h gpa_ep gpa_kend s s1 c hr
    simp only [run.state]
    rw [issued_append s s1 _ hlog]
  | fatal st s1 =>
    obtain ⟨-, l, hlog, hpre, -⟩ := vcpu_init_fatal x h gpa_ep gpa_kend s s1 st hr
    simp only [run.state]
    rw [issued_append s s1 l hlog]
    exact hpre

/-- C9, as stated, fails: two runs of `ukvm_hv_vcpu_init` with the same memory
size, entry address and kernel end, on hosts whose timestamp counters run at
different frequencies, both succeed and leave different `cpu.tsc_freq` in the
boot-info record. -/
theorem vcpu_init_tsc_freq_not_determined :
    (ukvm_hv_vcpu_init sample_x86 (sample_host 2000000000) 0x100000 0x150000
        ⟨sample_hv 0x200000, []⟩).succeeded = true ∧
    (ukvm_hv_vcpu_init sample_x86 (sample_host 3000000000) 0x100000 0x150000
        ⟨sample_hv 0x200000, []⟩).succeeded = true ∧
    (ukvm_hv_vcpu_init sample_x86 (sample_host 2000000000) 0x100000 0x150000
        ⟨sample_hv 0x200000, []⟩).state.hv.mem.boot_info.cpu.tsc_freq = 2000000000 ∧
    (ukvm_hv_vcpu_init sample_x86 (sample_host 3000000000) 0x100000 0x150000
        ⟨sample_hv 0x200000, []⟩).state.hv.mem.boot_info.cpu.tsc_freq = 3000000000 :=
  ⟨rfl, rfl, rfl, rfl⟩

/-- C9, amended. For two runs of `ukvm_hv_vcpu_init` on handles of the same
memory size with the same entry address and kernel end, on any two hosts: the
requests each run issues are an initial part of one sequence fixed by these
inputs, so the register and descriptor values programmed agree as far as both
runs get; when both runs succeed the two sequences are equal, the value
returned and the fields `mem_size`, `kernel_end` and `cmdline` of the
boot-info record are equal, and `cpu.tsc_freq` is in each run the frequency
its host reports. -/
theorem vcpu_init_deterministic (x : ukvm_cpu_x86_64) (h1 h2 : host) (gpa_ep gpa_kend : Nat)
    (s t : vmm) (hmem : s.hv.mem_size = t.hv.mem_size) :
    (issued s (ukvm_hv_vcpu_init x h1 gpa_ep gpa_kend s).state <+:
        boot_requests x s.hv.mem_size gpa_ep ∧
      issued t (ukvm_hv_vcpu_init x h2 gpa_ep gpa_kend t).state <+:
        boot_requests x s.hv.mem_size gpa_ep) ∧
    (∀ c1 s1 c2 t1, ukvm_hv_vcpu_init x h1 gpa_ep gpa_kend s = run.ok c1 s1 →
      ukvm_hv_vcpu_init x h2 gpa_ep gpa_kend t = run.ok c2 t1 →
      issued s s1 = issued t t1 ∧ c1 = c2 ∧
      s1.hv.mem.boot_info.mem_size = t1.hv.mem.boot_info.mem_size ∧
      s1.hv.mem.boot_info.kernel_end = t1.hv.mem.boot_info.kernel_end ∧
      s1.hv.mem.boot_info.cmdline = t1.hv.mem.boot_info.cmdline ∧
      s1.hv.mem.boot_info.cpu.tsc_freq = h1.tsc_freq ∧
      t1.hv.mem.boot_info.cpu.tsc_freq = h2.tsc_freq) := by
  refine ⟨⟨vcpu_init_issued_initial x h1 gpa_ep gpa_kend s, ?_⟩, ?_⟩
  · rw [hmem]
    exact vcpu_init_issued_initial x h2 gpa_ep gpa_kend t
  · intro c1 s1 c2 t1 hs ht
    obtain ⟨hc1, -, hhv1, hlog1⟩ := vcpu_init_ok x h1 gpa_ep gpa_kend s s1 c1 hs
    obtain ⟨hc2, -, hhv2, hlog2⟩ := vcpu_init_ok x h2 gpa_ep gpa_kend t t1 c2 ht
    rw [issued_append s s1 _ hlog1, issued_append t t1 _ hlog2, hhv1, hhv2, hc1, hc2, hmem]
    exact ⟨rfl, rfl, rfl, rfl, rfl, rfl, rfl⟩

/-- C9 amended, on the sample handle with two hosts of different counter
frequency: both runs succeed and have issued the same requests. -/
theorem vcpu_init_deterministic_witness :
    ∃ c1 s1 c2 t1,
      ukvm_hv_vcpu_init sample_x86 (sample_host 2000000000) 0x100000 0x150000
        ⟨sample_hv 0x200000, []⟩ = run.ok c1 s1 ∧
      ukvm_hv_vcpu_init sample_x86 (sample_host 3000000000) 0x100000 0x150000
        ⟨sample_hv 0x200000, [VM_RUN]⟩ = run.ok c2 t1 ∧
      issued ⟨sample_hv 0x200000, []⟩ s1 = issued ⟨sample_hv 0x200000, [VM_RUN]⟩ t1 ∧
      c1 = c2 ∧ s1.hv.mem.boot_info.mem_size = t1.hv.mem.boot_info.mem_size :=
  have key := (vcpu_init_deterministic sample_x86 (sample_host 2000000000)
    (sample_host 3000000000) 0x100000 0x150000 ⟨sample_hv 0x200000, []⟩
    ⟨sample_hv 0x200000, [VM_RUN]⟩ rfl).2 _ _ _ _ rfl rfl
  ⟨_, _, _, _, rfl, rfl, key.1, key.2.1, key.2.2.1⟩

set_option maxRecDepth 100000 in
theorem access_bits_fin :
    ∀ t : Fin 16, ∀ s : Fin 2, ∀ dpl : Fin 4, ∀ p l db g u : Fin 2,
      (t.val ||| (s.val <<< 4) ||| (dpl.val <<< 5) ||| (p.val <<< 7) ||| (l.val <<< 13)
          ||| (db.val <<< 14) ||| (g.val <<< 15) ||| (u.val <<< 16)) % 2 ^ 32 =
        t.val + 16 * s.val + 32 * dpl.val + 128 * p.val + 8192 * l.val + 16384 * db.val
          + 32768 * g.val + 65536 * u.val := by
  decide

theorem sreg_access_eq_sum (x : ukvm_cpu_x86_64) (sreg : x86_sreg)
    (hbit : x.X86_SREG_UNUSABLE_BIT = 16) (hfit : sreg_fits sreg) :
    sreg_access x sreg =
      sreg.type + 16 * sreg.s + 32 * sreg.dpl + 128 * sreg.p + 8192 * sreg.l
        + 16384 * sreg.db + 32768 * sreg.g + 65536 * sreg.unusable := by
  obtain ⟨ht, hdpl, hs, hp, hl, hdb, hg, hu⟩ := hfit
  have key := access_bits_fin ⟨sreg.type, ht⟩ ⟨sreg.s, hs⟩ ⟨sreg.dpl, hdpl⟩ ⟨sreg.p, hp⟩
    ⟨sreg.l, hl⟩ ⟨sreg.db, hdb⟩ ⟨sreg.g, hg⟩ ⟨sreg.unusable, hu⟩
  unfold sreg_access
  rw [hbit]
  exact key

theorem and_then_ok {α β : Type} (a : α) (s : vmm) (f : α → M β) :
    (run.ok a s).and_then f = f a s := rfl

theorem and_then_fatal {α β : Type} (st : Nat) (s : vmm) (f : α → M β) :
    (run.fatal st s : run α).and_then f = run.fatal st s := rfl

theorem and_then_ite {α β : Type} (c : Prop) [Decidable c] (a b : run α) (f : α → M β) :
    (if c then a else b).and_then f = if c then a.and_then f else b.and_then f := by
  split_ifs <;> rfl

theorem ite_M_apply {α : Type} (c : Prop) [Decidable c] (a b : M α) (s : vmm) :
    (if c then a else b) s = if c then a s else b s := by
  split_ifs <;> rfl

theorem vmm_set_sreg_apply (x : ukvm_cpu_x86_64) (h : host) (reg : vm_reg_name) (sreg : x86_sreg)
    (s : vmm) :
    vmm_set_sreg x h reg sreg s =
      if h.ioctl (VM_SET_SEGMENT_DESCRIPTOR 0 reg sreg.base sreg.limit (sreg_access x sreg))
          = -1 then
        run.fatal 1 ⟨s.hv, s.log ++
          [VM_SET_SEGMENT_DESCRIPTOR 0 reg sreg.base sreg.limit (sreg_access x sreg)]⟩
      else if h.ioctl (VM_SET_REGISTER 0 reg (sreg.selector * 8)) = -1 then
        run.fatal 1 ⟨s.hv, s.log ++
          [VM_SET_SEGMENT_DESCRIPTOR 0 reg sreg.base sreg.limit (sreg_access x sreg),
            VM_SET_REGISTER 0 reg (sreg.selector * 8)]⟩
      else
        run.ok () ⟨s.hv, s.log ++
          [VM_SET_SEGMENT_DESCRIPTOR 0 reg sreg.base sreg.limit (sreg_access x sreg),
            VM_SET_REGISTER 0 reg (sreg.selector * 8)]⟩ := by
  simp only [vmm_set_sreg, vmm_set_desc, vmm_set_reg, M_bind_apply, ioctl, and_then_ok,
    ite_M_apply, err, M_pure_apply, and_then_ite, and_then_fatal, List.append_assoc,
    List.singleton_append]

/-- C10. For a segment description whose fields fit their widths, with the
unusable bit at position 16, the access-rights word of `vmm_set_sreg` has
`type` in bits 0 to 3, `s` in bit 4, `dpl` in bits 5 and 6, `p` in bit 7, `l`
in bit 13, `db` in bit 14, `g` in bit 15, `unusable` in bit 16 and zero
everywhere else, so two such descriptions with the same word have the same
eight fields; `vmm_set_sreg` passes this word with base and limit in
`VM_SET_SEGMENT_DESCRIPTOR` and then, unless that request fails, writes the
selector register with the descriptor index times 8. -/
theorem vmm_set_sreg_access (x : ukvm_cpu_x86_64) (sreg : x86_sreg)
    (hbit : x.X86_SREG_UNUSABLE_BIT = 16) (hfit : sreg_fits sreg) :
    (sreg_access x sreg % 16 = sreg.type ∧
      sreg_access x sreg / 2 ^ 4 % 2 = sreg.s ∧
      sreg_access x sreg / 2 ^ 5 % 4 = sreg.dpl ∧
      sreg_access x sreg / 2 ^ 7 % 2 = sreg.p ∧
      sreg_access x sreg / 2 ^ 8 % 32 = 0 ∧
      sreg_access x sreg / 2 ^ 13 % 2 = sreg.l ∧
      sreg_access x sreg / 2 ^ 14 % 2 = sreg.db ∧
      sreg_access x sreg / 2 ^ 15 % 2 = sreg.g ∧
      sreg_access x sreg / 2 ^ 16 % 2 = sreg.unusable ∧
      sreg_access x sreg / 2 ^ 17 = 0) ∧
    (∀ t : x86_sreg, sreg_fits t → sreg_access x t = sreg_access x sreg →
      t.type = sreg.type ∧ t.s = sreg.s ∧ t.dpl = sreg.dpl ∧ t.p = sreg.p ∧ t.l = sreg.l ∧
        t.db = sreg.db ∧ t.g = sreg.g ∧ t.unusable = sreg.unusable) ∧
    (∀ (h : host) (reg : vm_reg_name) (s : vmm),
      vmm_set_sreg x h reg sreg s =
        if h.ioctl (VM_SET_SEGMENT_DESCRIPTOR 0 reg sreg.base sreg.limit (sreg_access x sreg))
            = -1 then
          run.fatal 1 ⟨s.hv, s.log ++
            [VM_SET_SEGMENT_DESCRIPTOR 0 reg sreg.base sreg.limit (sreg_access x sreg)]⟩
        else if h.ioctl (VM_SET_REGISTER 0 reg (sreg.selector * 8)) = -1 then
          run.fatal 1 ⟨s.hv, s.log ++
            [VM_SET_SEGMENT_DESCRIPTOR 0 reg sreg.base sreg.limit (sreg_access x sreg),
              VM_SET_REGISTER 0 reg (sreg.selector * 8)]⟩
        else
          run.ok () ⟨s.hv, s.log ++
            [VM_SET_SEGMENT_DESCRIPTOR 0 reg sreg.base sreg.limit (sreg_access x sreg),
              VM_SET_REGISTER 0 reg (sreg.selector * 8)]⟩) := by
  have hsum := sreg_access_eq_sum x sreg hbit hfit
  have hfit1 := hfit
  obtain ⟨ht, hdpl, hs, hp, hl, hdb, hg, hu⟩ := hfit1
  refine ⟨?_, ?_, ?_⟩
  · rw [hsum]
    norm_num
    omega
  · intro t htfit heq
    rw [sreg_access_eq_sum x t hbit htfit, hsum] at heq
    obtain ⟨ht1, hdpl1, hs1, hp1, hl1, hdb1, hg1, hu1⟩ := htfit
    omega
  · intro h reg s
    exact vmm_set_sreg_apply x h reg sreg s

/-- C10, on the sample code segment: the word is `0xa09b`, from which the type
11, the set bits `s`, `p`, `l` and `g` and the clear `unusable` bit are read
back. -/
theorem vmm_set_sreg_access_witness :
    sreg_fits sample_sreg_code ∧ sreg_access sample_x86 sample_sreg_code = 0xa09b ∧
      sreg_access sample_x86 sample_sreg_code % 16 = 11 ∧
      sreg_access sample_x86 sample_sreg_code / 2 ^ 4 % 2 = 1 ∧
      sreg_access sample_x86 sample_sreg_code / 2 ^ 5 % 4 = 0 ∧
      sreg_access sample_x86 sample_sreg_code / 2 ^ 7 % 2 = 1 ∧
      sreg_access sample_x86 sample_sreg_code / 2 ^ 8 % 32 = 0 :=
  have key := (vmm_set_sreg_access sample_x86 sample_sreg_code rfl (by decide)).1
  ⟨by decide, by decide, key.1, key.2.1, key.2.2.1, key.2.2.2.1, key.2.2.2.2.1⟩

/-! ## The run loop: lemmas -/

theorem vmexit_events_succ (i n : Nat) :
    vmexit_events i (n + 1) = event.vmexit i :: vmexit_events (i + 1) n := by
  simp [vmexit_events, List.range'_succ]

theorem run_vmexits_decline (fns : List ukvm_vmexit_fn_t) (i : Nat) (hv hv1 : ukvm_hv)
    (tr : List event) (hdecl : vmexits_decline fns hv = some hv1) :
    run_vmexits fns i hv tr = (false, hv1, tr ++ vmexit_events i fns.length) := by
  induction fns generalizing i hv tr with
  | nil =>
    simp only [vmexits_decline, Option.some.injEq] at hdecl
    simp [run_vmexits, vmexit_events, hdecl]
  | cons fn fns ih =>
    simp only [vmexits_decline] at hdecl
    split_ifs at hdecl with hz
    simp only [run_vmexits, if_neg hz, List.length_cons, vmexit_events_succ]
    rw [ih (i + 1) (fn hv).2 (tr ++ [event.vmexit i]) hdecl]
    simp

theorem run_vmexits_claim (pre post : List ukvm_vmexit_fn_t) (fn : ukvm_vmexit_fn_t) (i : Nat)
    (hv hvk : ukvm_hv) (tr : List event) (hdecl : vmexits_decline pre hv = some hvk)
    (hz : (fn hvk).1 = 0) :
    run_vmexits (pre ++ fn :: post) i hv tr =
      (true, (fn hvk).2, tr ++ vmexit_events i (pre.length + 1)) := by
  induction pre generalizing i hv tr with
  | nil =>
    simp only [vmexits_decline, Option.some.injEq] at hdecl
    subst hdecl
    simp [run_vmexits, hz, vmexit_events]
  | cons g pre ih =>
    simp only [vmexits_decline] at hdecl
    split_ifs at hdecl with hg
    rw [List.cons_append]
    simp only [run_vmexits, if_neg hg]
    rw [ih (i + 1) (g hv).2 (tr ++ [event.vmexit i]) hdecl]
    simp [vmexit_events_succ]

theorem run_vmexits_false (fns : List ukvm_vmexit_fn_t) (i : Nat) (hv hv1 : ukvm_hv)
    (tr tr1 : List event) (hrun : run_vmexits fns i hv tr = (false, hv1, tr1)) :
    vmexits_decline fns hv = some hv1 := by
  induction fns generalizing i hv tr with
  | nil =>
    simp only [run_vmexits, Prod.mk.injEq, true_and] at hrun
    simp [vmexits_decline, hrun.1]
  | cons fn fns ih =>
    simp only [run_vmexits] at hrun
    split_ifs at hrun with hz
    · simp at hrun
    · simp only [vmexits_decline, if_neg hz]
      exact ih (i + 1) (fn hv).2 (tr ++ [event.vmexit i]) hrun

theorem hypercalls_of_append (a b : List event) :
    hypercalls_of (a ++ b) = hypercalls_of a ++ hypercalls_of b := by
  simp [hypercalls_of, List.filterMap_append]

theorem hypercalls_of_vmexit_events (i n : Nat) : hypercalls_of (vmexit_events i n) = [] := by
  induction n generalizing i with
  | zero => simp [vmexit_events, hypercalls_of]
  | succ n ih =>
    rw [vmexit_events_succ]
    have := ih (i + 1)
    simp only [hypercalls_of] at this ⊢
    simp [List.filterMap_cons, this]

theorem vm_runs_of_vmexit_events (i n : Nat) : vm_runs_of (vmexit_events i n) = 0 := by
  simp [vm_runs_of, vmexit_events, List.count_eq_zero]

theorem vcpu_loop_body_decline (c : ukvm_core) (r : vm_run) (hv hv1 : ukvm_hv)
    (tr : List event) (hret : r.ret ≠ -1)
    (hdecl : vmexits_decline c.ukvm_core_vmexits (r.apply hv) = some hv1) :
    vcpu_loop_body c r hv tr =
      vmexit_switch c hv1 (trace_after_vmexits tr c.ukvm_core_vmexits.length) := by
  simp only [trace_after_vmexits, vcpu_loop_body, hret, false_and, if_false,
    run_vmexits_decline _ 0 _ _ (tr ++ [event.ioctl VM_RUN]) hdecl, List.append_assoc]

theorem vcpu_loop_body_claim (c : ukvm_core) (r : vm_run) (hv hvk : ukvm_hv)
    (tr : List event) (pre post : List ukvm_vmexit_fn_t) (fn : ukvm_vmexit_fn_t)
    (hret : r.ret ≠ -1) (hchain : c.ukvm_core_vmexits = pre ++ fn :: post)
    (hdecl : vmexits_decline pre (r.apply hv) = some hvk) (hz : (fn hvk).1 = 0) :
    vcpu_loop_body c r hv tr =
      iteration.continue_ (fn hvk).2 (trace_after_vmexits tr (pre.length + 1)) := by
  simp only [trace_after_vmexits, vcpu_loop_body, hret, false_and, if_false, hchain,
    run_vmexits_claim pre post fn 0 _ _ (tr ++ [event.ioctl VM_RUN]) hdecl hz,
    List.append_assoc]

theorem vcpu_loop_cons_continue (c : ukvm_core) (r : vm_run) (rs : List vm_run)
    (hv hv1 : ukvm_hv) (tr tr1 : List event)
    (hbody : vcpu_loop_body c r hv tr = iteration.continue_ hv1 tr1) :
    ukvm_hv_vcpu_loop c (r :: rs) hv tr = ukvm_hv_vcpu_loop c rs hv1 tr1 := by
  simp only [ukvm_hv_vcpu_loop, hbody]

theorem vcpu_loop_cons_stop (c : ukvm_core) (r : vm_run) (rs : List vm_run)
    (hv : ukvm_hv) (tr : List event) (res : loop_result)
    (hbody : vcpu_loop_body c r hv tr = iteration.stop res) :
    ukvm_hv_vcpu_loop c (r :: rs) hv tr = res := by
  simp only [ukvm_hv_vcpu_loop, hbody]

theorem array_read_in_range {α : Type} (a : List α) (port base : Nat) (hlo : base ≤ port) :
    array_read a ((port : Int) - (base : Int)) = a.get? (port - base) := by
  have h0 : (0 : Int) ≤ (port : Int) - (base : Int) := by omega
  have h1 : ((port : Int) - (base : Int)).toNat = port - base := by omega
  simp only [array_read, h0, if_true, h1]

theorem vmexit_switch_hypercall (c : ukvm_core) (hv : ukvm_hv) (tr : List event)
    (fn : ukvm_hypercall_fn_t) (hcode : hv.vm_exit.exitcode = VM_EXITCODE_INOUT)
    (hin : hv.vm_exit.u_inout.in_ = 0) (hbytes : hv.vm_exit.u_inout.bytes = 4)
    (hlo : c.UKVM_HYPERCALL_PIO_BASE ≤ hv.vm_exit.u_inout.port)
    (hhi : hv.vm_exit.u_inout.port < c.UKVM_HYPERCALL_PIO_BASE + c.UKVM_HYPERCALL_MAX)
    (hfn : c.ukvm_core_hypercalls.get? (hv.vm_exit.u_inout.port - c.UKVM_HYPERCALL_PIO_BASE) =
      some (some fn)) :
    vmexit_switch c hv tr =
      iteration.continue_ (fn hv hv.vm_exit.u_inout.eax)
        (tr ++ [event.hypercall
          ((hv.vm_exit.u_inout.port - c.UKVM_HYPERCALL_PIO_BASE : Nat) : Int)
          hv.vm_exit.u_inout.eax]) := by
  have hcast : ((hv.vm_exit.u_inout.port - c.UKVM_HYPERCALL_PIO_BASE : Nat) : Int) =
      (hv.vm_exit.u_inout.port : Int) - (c.UKVM_HYPERCALL_PIO_BASE : Int) := by omega
  have hg1 : ¬(hv.vm_exit.u_inout.in_ ≠ 0 ∨ hv.vm_exit.u_inout.bytes ≠ 4) := by
    simp [hin, hbytes]
  have hg2 : ¬(hv.vm_exit.u_inout.port < c.UKVM_HYPERCALL_PIO_BASE ∨
      hv.vm_exit.u_inout.port ≥ c.UKVM_HYPERCALL_PIO_BASE + c.UKVM_HYPERCALL_MAX) := by
    omega
  have hs : VM_EXITCODE_INOUT ≠ VM_EXITCODE_SUSPENDED := by decide
  unfold vmexit_switch
  simp only [hcode, hs, if_false, if_true, hg1, hg2, array_read_in_range _ _ _ hlo, hfn, hcast]

theorem vmexit_switch_malformed (c : ukvm_core) (hv : ukvm_hv) (tr : List event)
    (hbad : malformed_hypercall c hv.vm_exit) :
    vmexit_switch c hv tr = iteration.stop (loop_result.fatal 1 tr) := by
  obtain ⟨hcode, hbad⟩ := hbad
  have hs : VM_EXITCODE_INOUT ≠ VM_EXITCODE_SUSPENDED := by decide
  unfold vmexit_switch
  simp only [hcode, hs, if_false, if_true]
  split_ifs with h1 h2
  · rfl
  · rfl
  · have hlo : c.UKVM_HYPERCALL_PIO_BASE ≤ hv.vm_exit.u_inout.port := by omega
    have hslot : c.ukvm_core_hypercalls.get?
        (hv.vm_exit.u_inout.port - c.UKVM_HYPERCALL_PIO_BASE) = some none := by
      rcases hbad with h | h | h | h | h
      · exact absurd (Or.inl h) h1
      · exact absurd (Or.inr h) h1
      · exact absurd (Or.inl h) h2
      · exact absurd (Or.inr h) h2
      · exact h
    simp only [array_read_in_range _ _ _ hlo, hslot]

theorem vmexit_switch_defined (c : ukvm_core) (hv : ukvm_hv) (tr t : List event)
    (hlen : c.ukvm_core_hypercalls.length = c.UKVM_HYPERCALL_MAX) :
    vmexit_switch c hv tr ≠ iteration.stop (loop_result.undefined t) := by
  unfold vmexit_switch
  simp only
  split_ifs with h1 h2 h3 h4 h5 h6 h7
  all_goals try simp
  have hlo : c.UKVM_HYPERCALL_PIO_BASE ≤ hv.vm_exit.u_inout.port := by omega
  rw [array_read_in_range _ _ _ hlo]
  have hlt : hv.vm_exit.u_inout.port - c.UKVM_HYPERCALL_PIO_BASE <
      c.ukvm_core_hypercalls.length := by omega
  rw [List.get?_eq_get hlt]
  cases c.ukvm_core_hypercalls.get ⟨_, hlt⟩ <;> simp

theorem hypercalls_of_trace_after_vmexits (tr : List event) (n : Nat) :
    hypercalls_of (trace_after_vmexits tr n) = hypercalls_of tr := by
  simp only [trace_after_vmexits, hypercalls_of_append, hypercalls_of_vmexit_events]
  simp [hypercalls_of]

theorem vm_runs_of_trace_after_vmexits (tr : List event) (n : Nat) :
    vm_runs_of (trace_after_vmexits tr n) = vm_runs_of tr + 1 := by
  have h := vm_runs_of_vmexit_events 0 n
  simp only [vm_runs_of] at h
  simp [trace_after_vmexits, vm_runs_of, List.count_append, h]

theorem vcpu_loop_append_returned (c : ukvm_core) (script more : List vm_run)
    (hv hv1 : ukvm_hv) (tr tr1 : List event)
    (hret : ukvm_hv_vcpu_loop c script hv tr = loop_result.returned hv1 tr1) :
    ukvm_hv_vcpu_loop c (script ++ more) hv tr = loop_result.returned hv1 tr1 := by
  induction script generalizing hv tr with
  | nil => simp [ukvm_hv_vcpu_loop] at hret
  | cons r rs ih =>
    rw [List.cons_append]
    simp only [ukvm_hv_vcpu_loop] at hret ⊢
    cases hb : vcpu_loop_body c r hv tr with
    | continue_ hv2 tr2 =>
      rw [hb] at hret
      exact ih hv2 tr2 hret
    | stop res =>
      rw [hb] at hret
      exact hret

/-- The cases of `switch (vme->exitcode)` when the table has a slot for every
hypercall number: a halt returns, a well-formed hypercall invokes its handler
and goes on, a malformed port access is fatal, a no-information exit goes on
or fails its assertion, and every other exit code is fatal. -/
theorem vmexit_switch_cases (c : ukvm_core) (hv : ukvm_hv) (tr : List event)
    (hlen : c.ukvm_core_hypercalls.length = c.UKVM_HYPERCALL_MAX) :
    (hv.vm_exit.exitcode = VM_EXITCODE_SUSPENDED ∧
        vmexit_switch c hv tr = iteration.stop (loop_result.returned hv tr)) ∨
    (valid_hypercall c hv.vm_exit ∧
        ∃ fn : ukvm_hypercall_fn_t, vmexit_switch c hv tr =
          iteration.continue_ (fn hv hv.vm_exit.u_inout.eax)
            (tr ++ [event.hypercall
              ((hv.vm_exit.u_inout.port - c.UKVM_HYPERCALL_PIO_BASE : Nat) : Int)
              hv.vm_exit.u_inout.eax])) ∨
    (malformed_hypercall c hv.vm_exit ∧ ¬valid_hypercall c hv.vm_exit ∧
        vmexit_switch c hv tr = iteration.stop (loop_result.fatal 1 tr)) ∨
    (hv.vm_exit.exitcode = VM_EXITCODE_BOGUS ∧ hv.vm_exit.inst_length = 0 ∧
        vmexit_switch c hv tr = iteration.continue_ hv tr) ∨
    (hv.vm_exit.exitcode = VM_EXITCODE_BOGUS ∧ hv.vm_exit.inst_length ≠ 0 ∧
        vmexit_switch c hv tr = iteration.stop (loop_result.aborted tr)) ∨
    (hv.vm_exit.exitcode ≠ VM_EXITCODE_SUSPENDED ∧ hv.vm_exit.exitcode ≠ VM_EXITCODE_INOUT ∧
        hv.vm_exit.exitcode ≠ VM_EXITCODE_BOGUS ∧
        vmexit_switch c hv tr = iteration.stop (loop_result.fatal 1 tr)) := by
  by_cases hs : hv.vm_exit.exitcode = VM_EXITCODE_SUSPENDED
  · left
    exact ⟨hs, by simp [vmexit_switch, hs]⟩
  by_cases hio : hv.vm_exit.exitcode = VM_EXITCODE_INOUT
  · by_cases hvalid : valid_hypercall c hv.vm_exit
    · right; left
      obtain ⟨hcode, hin, hbytes, hlo, hhi, fn, hfn⟩ := hvalid
      exact ⟨⟨hcode, hin, hbytes, hlo, hhi, fn, hfn⟩, fn,
        vmexit_switch_hypercall c hv tr fn hcode hin hbytes hlo hhi hfn⟩
    · right; right; left
      have hbad : malformed_hypercall c hv.vm_exit := by
        refine ⟨hio, ?_⟩
        by_cases hin : hv.vm_exit.u_inout.in_ = 0
        · by_cases hbytes : hv.vm_exit.u_inout.bytes = 4
          · by_cases hlo : c.UKVM_HYPERCALL_PIO_BASE ≤ hv.vm_exit.u_inout.port
            · by_cases hhi : hv.vm_exit.u_inout.port <
                  c.UKVM_HYPERCALL_PIO_BASE + c.UKVM_HYPERCALL_MAX
              · right; right; right; right
                have hlt : hv.vm_exit.u_inout.port - c.UKVM_HYPERCALL_PIO_BASE <
                    c.ukvm_core_hypercalls.length := by omega
                rw [List.get?_eq_get hlt]
                cases hslot : c.ukvm_core_hypercalls.get ⟨_, hlt⟩ with
                | none => rfl
                | some fn =>
                  exfalso
                  apply hvalid
                  refine ⟨hio, hin, hbytes, hlo, hhi, fn, ?_⟩
                  rw [List.get?_eq_get hlt, hslot]
              · right; right; right; left
                omega
            · right; right; left
              omega
          · right; left
            exact hbytes
        · left
          exact hin
      exact ⟨hbad, hvalid, vmexit_switch_malformed c hv tr hbad⟩
  by_cases hb : hv.vm_exit.exitcode = VM_EXITCODE_BOGUS
  · by_cases hz : hv.vm_exit.inst_length = 0
    · right; right; right; left
      have h1 : VM_EXITCODE_BOGUS ≠ VM_EXITCODE_SUSPENDED := by decide
      have h2 : VM_EXITCODE_BOGUS ≠ VM_EXITCODE_INOUT := by decide
      exact ⟨hb, hz, by simp [vmexit_switch, hb, h1, h2, hz]⟩
    · right; right; right; right; left
      have h1 : VM_EXITCODE_BOGUS ≠ VM_EXITCODE_SUSPENDED := by decide
      have h2 : VM_EXITCODE_BOGUS ≠ VM_EXITCODE_INOUT := by decide
      exact ⟨hb, hz, by simp [vmexit_switch, hb, h1, h2, hz]⟩
  · right; right; right; right; right
    refine ⟨hs, hio, hb, ?_⟩
    unfold vmexit_switch
    simp only [hs, hio, hb, if_false]
    split_ifs <;> rfl

/-! ## The run loop: claims -/

/-- C1. When `VM_RUN` succeeds, no entry of the exit-handler chain handles the
exit and the exit is a 4-byte write to a port `p` of the hypercall range whose
table slot `p - UKVM_HYPERCALL_PIO_BASE` holds the handler `fn`: the pass
through the loop body invokes every chain entry once, then `fn`, once, with
the guest-physical address `eax`, invokes no other hypercall handler, and the
loop goes on to its next `VM_RUN` with the handle `fn` left. -/
theorem vcpu_loop_hypercall (c : ukvm_core) (r : vm_run) (rs : List vm_run) (hv hv1 : ukvm_hv)
    (tr : List event) (fn : ukvm_hypercall_fn_t) (hret : r.ret ≠ -1)
    (hdecl : vmexits_decline c.ukvm_core_vmexits (r.apply hv) = some hv1)
    (hcode : hv1.vm_exit.exitcode = VM_EXITCODE_INOUT)
    (hin : hv1.vm_exit.u_inout.in_ = 0) (hbytes : hv1.vm_exit.u_inout.bytes = 4)
    (hlo : c.UKVM_HYPERCALL_PIO_BASE ≤ hv1.vm_exit.u_inout.port)
    (hhi : hv1.vm_exit.u_inout.port < c.UKVM_HYPERCALL_PIO_BASE + c.UKVM_HYPERCALL_MAX)
    (hfn : c.ukvm_core_hypercalls.get?
      (hv1.vm_exit.u_inout.port - c.UKVM_HYPERCALL_PIO_BASE) = some (some fn)) :
    vcpu_loop_body c r hv tr =
      iteration.continue_ (fn hv1 hv1.vm_exit.u_inout.eax)
        (trace_after_vmexits tr c.ukvm_core_vmexits.length ++
          [event.hypercall
            ((hv1.vm_exit.u_inout.port - c.UKVM_HYPERCALL_PIO_BASE : Nat) : Int)
            hv1.vm_exit.u_inout.eax]) ∧
    hypercalls_of (trace_after_vmexits tr c.ukvm_core_vmexits.length ++
        [event.hypercall
          ((hv1.vm_exit.u_inout.port - c.UKVM_HYPERCALL_PIO_BASE : Nat) : Int)
          hv1.vm_exit.u_inout.eax]) =
      hypercalls_of tr ++
        [(((hv1.vm_exit.u_inout.port - c.UKVM_HYPERCALL_PIO_BASE : Nat) : Int),
          hv1.vm_exit.u_inout.eax)] ∧
    ukvm_hv_vcpu_loop c (r :: rs) hv tr =
      ukvm_hv_vcpu_loop c rs (fn hv1 hv1.vm_exit.u_inout.eax)
        (trace_after_vmexits tr c.ukvm_core_vmexits.length ++
          [event.hypercall
            ((hv1.vm_exit.u_inout.port - c.UKVM_HYPERCALL_PIO_BASE : Nat) : Int)
            hv1.vm_exit.u_inout.eax]) := by
  have hbody := (vcpu_loop_body_decline c r hv hv1 tr hret hdecl).trans
    (vmexit_switch_hypercall c hv1 _ fn hcode hin hbytes hlo hhi hfn)
  refine ⟨hbody, ?_, vcpu_loop_cons_continue c r rs hv _ tr _ hbody⟩
  rw [hypercalls_of_append, hypercalls_of_trace_after_vmexits]
  simp [hypercalls_of]

/-- C1, on the sample monitor: the guest writes the four bytes `0xAABBCC00` to
port `0x503`, the port of hypercall 3; the chain entry declines, the handler
of slot 3 is invoked with `0xAABBCC00`, and the loop is about to run the guest
again. -/
theorem vcpu_loop_hypercall_witness :
    ukvm_hv_vcpu_loop (sample_core [sample_vmexit_decline])
        [sample_run (sample_inout 4 0 0x503 0xAABBCC00)] (sample_hv 0x200000) [] =
      loop_result.running
        (sample_hypercall
          (sample_vmexit_decline
            ((sample_run (sample_inout 4 0 0x503 0xAABBCC00)).apply (sample_hv 0x200000))).2
          0xAABBCC00)
        [event.ioctl VM_RUN, event.vmexit 0, event.hypercall 3 0xAABBCC00] :=
  (vcpu_loop_hypercall (sample_core [sample_vmexit_decline])
    (sample_run (sample_inout 4 0 0x503 0xAABBCC00)) [] (sample_hv 0x200000) _ []
    sample_hypercall (by decide) rfl rfl rfl rfl (by decide) (by decide) rfl).2.2.trans rfl

/-- C2, as stated, fails: a 1-byte write to the port of hypercall 3 is a
malformed port access, yet when an entry of the exit-handler chain handles the
exit the loop does not terminate the process; it runs the guest again, here
twice in a row. -/
theorem vcpu_loop_malformed_handled_by_chain :
    malformed_hypercall (sample_core [sample_vmexit_claim]) (sample_inout 1 0 0x503 0xAABBCC00) ∧
    ukvm_hv_vcpu_loop (sample_core [sample_vmexit_claim])
        [sample_run (sample_inout 1 0 0x503 0xAABBCC00),
          sample_run (sample_inout 1 0 0x503 0xAABBCC00)] (sample_hv 0x200000) [] =
      loop_result.running
        ((sample_run (sample_inout 1 0 0x503 0xAABBCC00)).apply (sample_hv 0x200000))
        [event.ioctl VM_RUN, event.vmexit 0, event.ioctl VM_RUN, event.vmexit 0] :=
  ⟨⟨rfl, Or.inr (Or.inl (by decide))⟩, rfl⟩

/-- C2, amended. When `VM_RUN` succeeds and no entry of the exit-handler chain
handles the exit, a malformed port access (a read, a width other than 4, a
port outside the hypercall range, or a port of the range whose table slot is
empty) ends the loop in a fatal exit with status 1, whatever the rest of the
script, after the chain entries and no hypercall handler have been invoked;
and when the table has `UKVM_HYPERCALL_MAX` slots no pass through the loop
body, on any exit, reads the table outside of it. -/
theorem vcpu_loop_malformed_hypercall (c : ukvm_core) (r : vm_run) (rs : List vm_run)
    (hv hv1 : ukvm_hv) (tr : List event) (hret : r.ret ≠ -1)
    (hdecl : vmexits_decline c.ukvm_core_vmexits (r.apply hv) = some hv1)
    (hbad : malformed_hypercall c hv1.vm_exit) :
    vcpu_loop_body c r hv tr =
      iteration.stop
        (loop_result.fatal 1 (trace_after_vmexits tr c.ukvm_core_vmexits.length)) ∧
    ukvm_hv_vcpu_loop c (r :: rs) hv tr =
      loop_result.fatal 1 (trace_after_vmexits tr c.ukvm_core_vmexits.length) ∧
    hypercalls_of (trace_after_vmexits tr c.ukvm_core_vmexits.length) = hypercalls_of tr ∧
    (c.ukvm_core_hypercalls.length = c.UKVM_HYPERCALL_MAX →
      ∀ (r2 : vm_run) (hv2 : ukvm_hv) (tr2 t : List event),
        vcpu_loop_body c r2 hv2 tr2 ≠ iteration.stop (loop_result.undefined t)) := by
  have hbody := (vcpu_loop_body_decline c r hv hv1 tr hret hdecl).trans
    (vmexit_switch_malformed c hv1 _ hbad)
  refine ⟨hbody, vcpu_loop_cons_stop c r rs hv tr _ hbody,
    hypercalls_of_trace_after_vmexits tr _, ?_⟩
  intro hlen r2 hv2 tr2 t
  unfold vcpu_loop_body
  simp only
  split_ifs with h1 h2
  · simp
  · simp
  · rcases hrun : run_vmexits c.ukvm_core_vmexits 0 (r2.apply hv2)
      (tr2 ++ [event.ioctl VM_RUN]) with ⟨b, hv3, tr3⟩
    cases b
    · exact vmexit_switch_defined c hv3 tr3 t hlen
    · simp

/-- C2 amended, on the sample monitor: a 1-byte write to the port of hypercall
3 that no chain entry handles is fatal with status 1 and no handler invoked. -/
theorem vcpu_loop_malformed_hypercall_witness :
    ukvm_hv_vcpu_loop (sample_core [sample_vmexit_decline])
        [sample_run (sample_inout 1 0 0x503 0xAABBCC00),
          sample_run (sample_inout 4 0 0x503 0xAABBCC00)] (sample_hv 0x200000) [] =
      loop_result.fatal 1 [event.ioctl VM_RUN, event.vmexit 0] :=
  (vcpu_loop_malformed_hypercall (sample_core [sample_vmexit_decline])
    (sample_run (sample_inout 1 0 0x503 0xAABBCC00))
    [sample_run (sample_inout 4 0 0x503 0xAABBCC00)] (sample_hv 0x200000) _ []
    (by decide) rfl ⟨rfl, Or.inr (Or.inl (by decide))⟩).2.1

/-- C3. When `VM_RUN` succeeds the chain is consulted in order. If the entries
`pre` all report that they have not handled the exit and the entry `fn` after
them reports that it has (returns 0), the pass invokes exactly the entries
`0`, ..., `pre.length`, once each and in order, none after `fn`, no hypercall
handler, and the loop goes on to its next `VM_RUN`, whatever the exit record
says. If no entry handles the exit, every entry has been invoked once, in
order, when `switch (vme->exitcode)` is reached. -/
theorem vcpu_loop_chain_first_claim (c : ukvm_core) (r : vm_run) (rs : List vm_run)
    (hv : ukvm_hv) (tr : List event) (hret : r.ret ≠ -1) :
    (∀ (pre post : List ukvm_vmexit_fn_t) (fn : ukvm_vmexit_fn_t) (hvk : ukvm_hv),
      c.ukvm_core_vmexits = pre ++ fn :: post →
      vmexits_decline pre (r.apply hv) = some hvk → (fn hvk).1 = 0 →
      vcpu_loop_body c r hv tr =
          iteration.continue_ (fn hvk).2 (trace_after_vmexits tr (pre.length + 1)) ∧
        hypercalls_of (trace_after_vmexits tr (pre.length + 1)) = hypercalls_of tr ∧
        ukvm_hv_vcpu_loop c (r :: rs) hv tr =
          ukvm_hv_vcpu_loop c rs (fn hvk).2 (trace_after_vmexits tr (pre.length + 1))) ∧
    (∀ hv1 : ukvm_hv, vmexits_decline c.ukvm_core_vmexits (r.apply hv) = some hv1 →
      vcpu_loop_body c r hv tr =
        vmexit_switch c hv1 (trace_after_vmexits tr c.ukvm_core_vmexits.length)) := by
  constructor
  · intro pre post fn hvk hchain hdecl hz
    have hbody := vcpu_loop_body_claim c r hv hvk tr pre post fn hret hchain hdecl hz
    exact ⟨hbody, hypercalls_of_trace_after_vmexits tr _,
      vcpu_loop_cons_continue c r rs hv _ tr _ hbody⟩
  · intro hv1 hdecl
    exact vcpu_loop_body_decline c r hv hv1 tr hret hdecl

/-- C3, on a chain of three entries of which the second handles the exit, at
a halt exit: the first two entries are invoked, the third is not, and the loop
does not return but is about to run the guest again. -/
theorem vcpu_loop_chain_first_claim_witness :
    ukvm_hv_vcpu_loop
        (sample_core [sample_vmexit_decline, sample_vmexit_claim, sample_vmexit_decline])
        [sample_run (sample_exit VM_EXITCODE_SUSPENDED)] (sample_hv 0x200000) [] =
      loop_result.running
        (sample_vmexit_decline
          ((sample_run (sample_exit VM_EXITCODE_SUSPENDED)).apply (sample_hv 0x200000))).2
        [event.ioctl VM_RUN, event.vmexit 0, event.vmexit 1] :=
  ((vcpu_loop_chain_first_claim
    (sample_core [sample_vmexit_decline, sample_vmexit_claim, sample_vmexit_decline])
    (sample_run (sample_exit VM_EXITCODE_SUSPENDED)) [] (sample_hv 0x200000) []
    (by decide)).1 [sample_vmexit_decline] [sample_vmexit_decline] sample_vmexit_claim _
    rfl rfl rfl).2.2.trans rfl

/-- C4, as stated, fails: on two exits with exit code `VM_EXITCODE_SUSPENDED`
that an entry of the exit-handler chain handles, the loop does not return and
`VM_RUN` is invoked again after the first of them. -/
theorem vcpu_loop_halt_handled_by_chain :
    ukvm_hv_vcpu_loop (sample_core [sample_vmexit_claim])
        [sample_run (sample_exit VM_EXITCODE_SUSPENDED),
          sample_run (sample_exit VM_EXITCODE_SUSPENDED)] (sample_hv 0x200000) [] =
      loop_result.running
        ((sample_run (sample_exit VM_EXITCODE_SUSPENDED)).apply (sample_hv 0x200000))
        [event.ioctl VM_RUN, event.vmexit 0, event.ioctl VM_RUN, event.vmexit 0] :=
  rfl

/-- C4, amended. When `VM_RUN` succeeds, no entry of the exit-handler chain
handles the exit and the exit code is `VM_EXITCODE_SUSPENDED`, the loop
returns to its caller (not in a fatal exit) with the handle the chain left,
whatever the rest of the script: `VM_RUN` has been invoked once more than
before this pass and never again. In general a run of the loop that has
returned is not changed by any continuation of the script. -/
theorem vcpu_loop_halt (c : ukvm_core) (r : vm_run) (rs : List vm_run) (hv hv1 : ukvm_hv)
    (tr : List event) (hret : r.ret ≠ -1)
    (hdecl : vmexits_decline c.ukvm_core_vmexits (r.apply hv) = some hv1)
    (hcode : hv1.vm_exit.exitcode = VM_EXITCODE_SUSPENDED) :
    ukvm_hv_vcpu_loop c (r :: rs) hv tr =
      loop_result.returned hv1 (trace_after_vmexits tr c.ukvm_core_vmexits.length) ∧
    vm_runs_of (trace_after_vmexits tr c.ukvm_core_vmexits.length) = vm_runs_of tr + 1 ∧
    (∀ (script more : List vm_run) (hv0 hv2 : ukvm_hv) (tr0 tr2 : List event),
      ukvm_hv_vcpu_loop c script hv0 tr0 = loop_result.returned hv2 tr2 →
      ukvm_hv_vcpu_loop c (script ++ more) hv0 tr0 = loop_result.returned hv2 tr2) := by
  have hbody : vcpu_loop_body c r hv tr = iteration.stop
      (loop_result.returned hv1 (trace_after_vmexits tr c.ukvm_core_vmexits.length)) := by
    rw [vcpu_loop_body_decline c r hv hv1 tr hret hdecl]
    simp [vmexit_switch, hcode]
  exact ⟨vcpu_loop_cons_stop c r rs hv tr _ hbody, vm_runs_of_trace_after_vmexits tr _,
    fun script more hv0 hv2 tr0 tr2 h =>
      vcpu_loop_append_returned c script more hv0 hv2 tr0 tr2 h⟩

/-- C4 amended, on the sample monitor with an empty chain: the guest halts at
its first exit; the loop returns and the two further exits of the script are
never reached: `VM_RUN` has been invoked once. -/
theorem vcpu_loop_halt_witness :
    ukvm_hv_vcpu_loop (sample_core [])
        [sample_run (sample_exit VM_EXITCODE_SUSPENDED),
          sample_run (sample_inout 4 0 0x503 0xAABBCC00),
          sample_run (sample_exit VM_EXITCODE_SUSPENDED)] (sample_hv 0x200000) [] =
      loop_result.returned
        ((sample_run (sample_exit VM_EXITCODE_SUSPENDED)).apply (sample_hv 0x200000))
        [event.ioctl VM_RUN] :=
  (vcpu_loop_halt (sample_core []) (sample_run (sample_exit VM_EXITCODE_SUSPENDED))
    [sample_run (sample_inout 4 0 0x503 0xAABBCC00),
      sample_run (sample_exit VM_EXITCODE_SUSPENDED)] (sample_hv 0x200000) _ []
    (by decide) rfl rfl).1

/-- C7. When `VM_RUN` succeeds, no entry of the exit-handler chain handles the
exit and the table has `UKVM_HYPERCALL_MAX` slots, the pass through the loop
body goes on to the next `VM_RUN` exactly when the exit is a well-formed
hypercall or a `VM_EXITCODE_BOGUS` exit with instruction length zero, the
latter without invoking a hypercall handler; it returns to the caller exactly
when the exit code is `VM_EXITCODE_SUSPENDED`; and it ends the process in
every other case: with status 1 for `VM_EXITCODE_VMX`, for every exit code
other than the four named and for a port access that is not a well-formed
hypercall, and in the failed assertion for a `VM_EXITCODE_BOGUS` exit with a
non-zero instruction length. -/
theorem vcpu_loop_classification (c : ukvm_core) (r : vm_run) (hv hv1 : ukvm_hv)
    (tr : List event) (hret : r.ret ≠ -1)
    (hdecl : vmexits_decline c.ukvm_core_vmexits (r.apply hv) = some hv1)
    (hlen : c.ukvm_core_hypercalls.length = c.UKVM_HYPERCALL_MAX) :
    ((∃ hv2 tr2, vcpu_loop_body c r hv tr = iteration.continue_ hv2 tr2) ↔
      (valid_hypercall c hv1.vm_exit ∨
        (hv1.vm_exit.exitcode = VM_EXITCODE_BOGUS ∧ hv1.vm_exit.inst_length = 0))) ∧
    (hv1.vm_exit.exitcode = VM_EXITCODE_BOGUS → hv1.vm_exit.inst_length = 0 →
      vcpu_loop_body c r hv tr =
          iteration.continue_ hv1 (trace_after_vmexits tr c.ukvm_core_vmexits.length) ∧
        hypercalls_of (trace_after_vmexits tr c.ukvm_core_vmexits.length) =
          hypercalls_of tr) ∧
    ((∃ hv2 tr2, vcpu_loop_body c r hv tr = iteration.stop (loop_result.returned hv2 tr2)) ↔
      hv1.vm_exit.exitcode = VM_EXITCODE_SUSPENDED) ∧
    (hv1.vm_exit.exitcode = VM_EXITCODE_VMX →
      vcpu_loop_body c r hv tr =
        iteration.stop
          (loop_result.fatal 1 (trace_after_vmexits tr c.ukvm_core_vmexits.length))) ∧
    (hv1.vm_exit.exitcode ≠ VM_EXITCODE_SUSPENDED →
      hv1.vm_exit.exitcode ≠ VM_EXITCODE_INOUT →
      hv1.vm_exit.exitcode ≠ VM_EXITCODE_BOGUS →
      vcpu_loop_body c r hv tr =
        iteration.stop
          (loop_result.fatal 1 (trace_after_vmexits tr c.ukvm_core_vmexits.length))) ∧
    (hv1.vm_exit.exitcode = VM_EXITCODE_INOUT → ¬valid_hypercall c hv1.vm_exit →
      vcpu_loop_body c r hv tr =
        iteration.stop
          (loop_result.fatal 1 (trace_after_vmexits tr c.ukvm_core_vmexits.length))) ∧
    (hv1.vm_exit.exitcode = VM_EXITCODE_BOGUS → hv1.vm_exit.inst_length ≠ 0 →
      vcpu_loop_body c r hv tr =
        iteration.stop
          (loop_result.aborted (trace_after_vmexits tr c.ukvm_core_vmexits.length))) := by
  rw [vcpu_loop_body_decline c r hv hv1 tr hret hdecl]
  have hIS : VM_EXITCODE_INOUT ≠ VM_EXITCODE_SUSPENDED := by decide
  have hBS : VM_EXITCODE_BOGUS ≠ VM_EXITCODE_SUSPENDED := by decide
  have hBI : VM_EXITCODE_BOGUS ≠ VM_EXITCODE_INOUT := by decide
  have hVS : VM_EXITCODE_VMX ≠ VM_EXITCODE_SUSPENDED := by decide
  have hVI : VM_EXITCODE_VMX ≠ VM_EXITCODE_INOUT := by decide
  have hVB : VM_EXITCODE_VMX ≠ VM_EXITCODE_BOGUS := by decide
  rcases vmexit_switch_cases c hv1 (trace_after_vmexits tr c.ukvm_core_vmexits.length) hlen
    with ⟨hs, heq⟩ | ⟨hvalid, fn, heq⟩ | ⟨hbad, hnv, heq⟩ | ⟨hb, hz, heq⟩ | ⟨hb, hnz, heq⟩ |
      ⟨hns, hni, hnb, heq⟩
  · rw [heq]
    refine ⟨⟨?_, ?_⟩, ?_, ⟨fun _ => hs, fun _ => ⟨_, _, rfl⟩⟩, ?_, ?_, ?_, ?_⟩
    · rintro ⟨hv2, tr2, h⟩
      exact absurd h (by simp)
    · rintro (h | h)
      · exact absurd (h.1.symm.trans hs) hIS
      · exact absurd (h.1.symm.trans hs) hBS
    · intro h
      exact absurd (h.symm.trans hs) hBS
    · intro h
      exact absurd (h.symm.trans hs) hVS
    · intro h
      exact absurd hs h
    · intro h
      exact absurd (h.symm.trans hs) hIS
    · intro h
      exact absurd (h.symm.trans hs) hBS
  · rw [heq]
    have hio := hvalid.1
    refine ⟨⟨fun _ => Or.inl hvalid, fun _ => ⟨_, _, rfl⟩⟩, ?_, ⟨?_, ?_⟩, ?_, ?_, ?_, ?_⟩
    · intro h
      exact absurd (h.symm.trans hio) hBI
    · rintro ⟨hv2, tr2, h⟩
      exact absurd h (by simp)
    · intro h
      exact absurd (hio.symm.trans h) hIS
    · intro h
      exact absurd (h.symm.trans hio) hVI
    · intro _ h
      exact absurd hio h
    · intro _ h
      exact absurd hvalid h
    · intro h
      exact absurd (h.symm.trans hio) hBI
  · rw [heq]
    have hio := hbad.1
    refine ⟨⟨?_, ?_⟩, ?_, ⟨?_, ?_⟩, ?_, ?_, ?_, ?_⟩
    · rintro ⟨hv2, tr2, h⟩
      exact absurd h (by simp)
    · rintro (h | h)
      · exact absurd h hnv
      · exact absurd (h.1.symm.trans hio) hBI
    · intro h
      exact absurd (h.symm.trans hio) hBI
    · rintro ⟨hv2, tr2, h⟩
      exact absurd h (by simp)
    · intro h
      exact absurd (hio.symm.trans h) hIS
    · intro _
      rfl
    · intro _ _ _
      rfl
    · intro _ _
      rfl
    · intro h
      exact absurd (h.symm.trans hio) hBI
  · rw [heq]
    refine ⟨⟨fun _ => Or.inr ⟨hb, hz⟩, fun _ => ⟨_, _, rfl⟩⟩,
      fun _ _ => ⟨rfl, hypercalls_of_trace_after_vmexits tr _⟩, ⟨?_, ?_⟩, ?_, ?_, ?_, ?_⟩
    · rintro ⟨hv2, tr2, h⟩
      exact absurd h (by simp)
    · intro h
      exact absurd (hb.symm.trans h) hBS
    · intro h
      exact absurd (h.symm.trans hb) hVB
    · intro _ _ h
      exact absurd hb h
    · intro h
      exact absurd (hb.symm.trans h) hBI
    · intro _ h
      exact absurd hz h
  · rw [heq]
    refine ⟨⟨?_, ?_⟩, ?_, ⟨?_, ?_⟩, ?_, ?_, ?_, fun _ _ => rfl⟩
    · rintro ⟨hv2, tr2, h⟩
      exact absurd h (by simp)
    · rintro (h | h)
      · exact absurd (hb.symm.trans h.1) hBI
      · exact absurd h.2 hnz
    · intro _ h
      exact absurd h hnz
    · rintro ⟨hv2, tr2, h⟩
      exact absurd h (by simp)
    · intro h
      exact absurd (hb.symm.trans h) hBS
    · intro h
      exact absurd (h.symm.trans hb) hVB
    · intro _ _ h
      exact absurd hb h
    · intro h
      exact absurd (hb.symm.trans h) hBI
  · rw [heq]
    refine ⟨⟨?_, ?_⟩, ?_, ⟨?_, ?_⟩, fun _ => rfl, fun _ _ _ => rfl, ?_, ?_⟩
    · rintro ⟨hv2, tr2, h⟩
      exact absurd h (by simp)
    · rintro (h | h)
      · exact absurd h.1 hni
      · exact absurd h.1 hnb
    · intro h
      exact absurd h hnb
    · rintro ⟨hv2, tr2, h⟩
      exact absurd h (by simp)
    · intro h
      exact absurd h hns
    · intro h
      exact absurd h hni
    · intro h
      exact absurd h hnb

/-- C7, on the sample monitor: a `VM_EXITCODE_BOGUS` exit with instruction
length zero is followed by the next `VM_RUN` with no handler invoked, and the
`VM_EXITCODE_VMX` exit that comes next is fatal. -/
theorem vcpu_loop_classification_witness :
    vcpu_loop_body (sample_core []) (sample_run (sample_exit VM_EXITCODE_BOGUS))
        (sample_hv 0x200000) [] =
      iteration.continue_
        ((sample_run (sample_exit VM_EXITCODE_BOGUS)).apply (sample_hv 0x200000))
        [event.ioctl VM_RUN] ∧
    vcpu_loop_body (sample_core []) (sample_run (sample_exit VM_EXITCODE_VMX))
        (sample_hv 0x200000) [event.ioctl VM_RUN] =
      iteration.stop (loop_result.fatal 1 [event.ioctl VM_RUN, event.ioctl VM_RUN]) :=
  ⟨((vcpu_loop_classification (sample_core []) (sample_run (sample_exit VM_EXITCODE_BOGUS))
      (sample_hv 0x200000) _ [] (by decide) rfl rfl).2.1 rfl rfl).1,
   (vcpu_loop_classification (sample_core []) (sample_run (sample_exit VM_EXITCODE_VMX))
      (sample_hv 0x200000) _ [event.ioctl VM_RUN] (by decide) rfl rfl).2.2.2.1 rfl⟩

/-- C8. When `VM_RUN` fails (returns -1): with `errno` equal to `EINTR` the
pass through the loop body ends there, no chain entry consulted and no exit
classified, and the loop invokes `VM_RUN` again; with any other `errno` the
loop ends in a fatal exit with status 1, no chain entry and no hypercall
handler invoked. -/
theorem vcpu_loop_run_failed (c : ukvm_core) (r : vm_run) (rs : List vm_run) (hv : ukvm_hv)
    (tr : List event) (hfail : r.ret = -1) :
    (r.errno = EINTR →
      vcpu_loop_body c r hv tr = iteration.continue_ (r.apply hv) (tr ++ [event.ioctl VM_RUN]) ∧
      ukvm_hv_vcpu_loop c (r :: rs) hv tr =
        ukvm_hv_vcpu_loop c rs (r.apply hv) (tr ++ [event.ioctl VM_RUN])) ∧
    (r.errno ≠ EINTR →
      vcpu_loop_body c r hv tr =
        iteration.stop (loop_result.fatal 1 (tr ++ [event.ioctl VM_RUN])) ∧
      ukvm_hv_vcpu_loop c (r :: rs) hv tr = loop_result.fatal 1 (tr ++ [event.ioctl VM_RUN])) := by
  constructor
  · intro he
    have hbody : vcpu_loop_body c r hv tr =
        iteration.continue_ (r.apply hv) (tr ++ [event.ioctl VM_RUN]) := by
      simp [vcpu_loop_body, hfail, he]
    exact ⟨hbody, vcpu_loop_cons_continue c r rs hv _ tr _ hbody⟩
  · intro he
    have hbody : vcpu_loop_body c r hv tr =
        iteration.stop (loop_result.fatal 1 (tr ++ [event.ioctl VM_RUN])) := by
      simp [vcpu_loop_body, hfail, he]
    exact ⟨hbody, vcpu_loop_cons_stop c r rs hv tr _ hbody⟩

/-- C8, on the sample monitor whose chain would handle every exit: a `VM_RUN`
interrupted by a signal is followed directly by the next `VM_RUN`, and a
`VM_RUN` that fails with another `errno` (here 22) is fatal; no chain entry is
invoked in either case. -/
theorem vcpu_loop_run_failed_witness :
    ukvm_hv_vcpu_loop (sample_core [sample_vmexit_claim])
        [sample_run_failed EINTR, sample_run_failed 22] (sample_hv 0x200000) [] =
      loop_result.fatal 1 [event.ioctl VM_RUN, event.ioctl VM_RUN] :=
  ((vcpu_loop_run_failed (sample_core [sample_vmexit_claim]) (sample_run_failed EINTR)
    [sample_run_failed 22] (sample_hv 0x200000) [] rfl).1 rfl).2.trans
    ((vcpu_loop_run_failed (sample_core [sample_vmexit_claim]) (sample_run_failed 22) []
      ((sample_run_failed EINTR).apply (sample_hv 0x200000)) [event.ioctl VM_RUN] rfl).2
      (by decide)).2

end Ukvm
